import Mathlib

set_option maxHeartbeats 2000000

/- Shallow embedding of src/port-channel.py (Nexus vPC Port-Channel builder),
with theorems checking the natural-language specification against it. -/

namespace PortChannel

/-- Python whitespace: the characters stripped by str.strip() and matched by
the regex class \s on str (ASCII whitespace plus Unicode whitespace points). -/
def isPySpace (c : Char) : Bool :=
  c = ' ' || c = '\t' || c = '\n' || c.toNat = 13 || c.toNat = 11 || c.toNat = 12 ||
  (28 ≤ c.toNat && c.toNat ≤ 31) || c.toNat = 0x85 || c.toNat = 0xa0 ||
  c.toNat = 0x1680 || (0x2000 ≤ c.toNat && c.toNat ≤ 0x200a) ||
  c.toNat = 0x2028 || c.toNat = 0x2029 || c.toNat = 0x202f || c.toNat = 0x205f ||
  c.toNat = 0x3000

def stripList (l : List Char) : List Char :=
  ((l.dropWhile isPySpace).reverse.dropWhile isPySpace).reverse

/-- Python str.strip() with no arguments. -/
def pyStrip (s : String) : String := String.mk (stripList s.data)

/-- Python str.lower() (the source only lowercases ASCII keywords). -/
def pyLower (s : String) : String := String.mk (s.data.map Char.toLower)

/-- Python str.isdigit(): nonempty and all digits. -/
def isDigitList (l : List Char) : Bool := !l.isEmpty && l.all Char.isDigit

def pyIsDigit (s : String) : Bool := isDigitList s.data

/-- Python int() on a digit string. -/
def digitsToNat (l : List Char) : Nat := l.foldl (fun a c => 10 * a + (c.toNat - 48)) 0

/-- The single-character replacements in normalize_separators: Arabic comma,
fullwidth comma, semicolon, slash and pipe all become ','. -/
def sepMap (c : Char) : Char :=
  if c.toNat = 0x60c || c.toNat = 0xff0c || c = ';' || c = '/' || c = '|' then ',' else c

/-- Replace every maximal run of characters satisfying p by the single
character rep (models re.sub(r"\s+", ",", s) and re.sub(r",+", ",", s)). -/
def collapseRuns (p : Char → Bool) (rep : Char) : Bool → List Char → List Char
  | _, [] => []
  | inRun, c :: cs =>
    if p c then
      if inRun then collapseRuns p rep true cs else rep :: collapseRuns p rep true cs
    else c :: collapseRuns p rep false cs

/-- normalize_separators from the source: alternate separators to commas,
whitespace runs to commas, drop zero-width/no-break spaces, collapse comma
runs, strip outer commas. -/
def normalize_separators (s : String) : String :=
  let l1 := s.data.map sepMap
  let l2 := collapseRuns isPySpace ',' false l1
  let l3 := l2.filter (fun c => !(c.toNat = 0x200b) && !(c.toNat = 0xa0))
  let l4 := collapseRuns (fun c => c = ',') ',' false l3
  String.mk (((l4.dropWhile (fun c => c = ',')).reverse.dropWhile (fun c => c = ',')).reverse)

/-- Take up to n leading digits; returns the chunk and the rest. -/
def grabDigits : Nat → List Char → List Char × List Char
  | _, [] => ([], [])
  | 0, l => ([], l)
  | n + 1, c :: cs =>
    if c.isDigit then
      let p := grabDigits n cs
      (c :: p.1, p.2)
    else ([], c :: cs)

/-- re.findall(r"\d{1,4}", s): greedy, non-overlapping, left-to-right chunks of
at most four digits (fuel-driven; fuel = length of the list suffices). -/
def findNums : Nat → List Char → List (List Char)
  | 0, _ => []
  | _ + 1, [] => []
  | fuel + 1, c :: cs =>
    if c.isDigit then
      let p := grabDigits 3 cs
      (c :: p.1) :: findNums fuel p.2
    else findNums fuel cs

/-- Insert into an ascending duplicate-free list (Python set plus sorted()). -/
def insertAsc (v : Nat) : List Nat → List Nat
  | [] => [v]
  | x :: xs => if v < x then v :: x :: xs else if v = x then x :: xs else x :: insertAsc v xs

def insertAscAll (l : List Nat) (acc : List Nat) : List Nat :=
  l.foldl (fun a v => insertAsc v a) acc

/-- Python s.split(","). -/
def splitCommaAux (cur : List Char) : List Char → List (List Char)
  | [] => [cur.reverse]
  | c :: cs => if c = ',' then cur.reverse :: splitCommaAux [] cs else splitCommaAux (c :: cur) cs

/-- One comma-separated token of the range branch of parse_vlan_list: a
well-formed in-range a-b token adds the range, a well-formed in-range plain
token adds one id, everything else is dropped. -/
def vlanStep (acc : List Nat) (part0 : List Char) : List Nat :=
  let part := stripList part0
  if part.isEmpty then acc
  else if part.contains '-' then
    let a := part.takeWhile (fun c => !(c = '-'))
    let b := (part.dropWhile (fun c => !(c = '-'))).drop 1
    if isDigitList a && isDigitList b then
      let lo := digitsToNat a
      let hi := digitsToNat b
      if 1 ≤ lo ∧ lo ≤ 4094 ∧ 1 ≤ hi ∧ hi ≤ 4094 ∧ lo ≤ hi then
        insertAscAll (List.range' lo (hi + 1 - lo)) acc
      else acc
    else acc
  else if isDigitList part then
    let v := digitsToNat part
    if 1 ≤ v ∧ v ≤ 4094 then insertAsc v acc else acc
  else acc

/-- parse_vlan_list from the source: after normalization, either the
no-separator digit-run branch (inputs longer than four characters with no
comma or hyphen) or the comma/range branch; tokens out of [1, 4094] or
malformed are dropped; result is ascending and duplicate-free. -/
def parse_vlan_list (cell : String) : List Nat :=
  let s := (normalize_separators cell).data
  if s.isEmpty then []
  else if !(s.contains ',') && !(s.contains '-') && decide (4 < s.length) then
    insertAscAll (((findNums s.length s).map digitsToNat).filter
      (fun v => decide (1 ≤ v ∧ v ≤ 4094))) []
  else
    (splitCommaAux [] s).foldl vlanStep []

example : parse_vlan_list ("10,20-22") = [10, 20, 21, 22] := by decide
example : parse_vlan_list ("12345") = [5, 1234] := by decide
example : parse_vlan_list ("") = [] := by decide
example : parse_vlan_list (" 10 ; 20 ") = [10, 20] := by decide
example : parse_vlan_list ("4095,7") = [7] := by decide
example : parse_vlan_list ("9-5") = [] := by decide

/-- One intent-table row after loading (the required Excel columns plus the
optional lag_key column; pc_required is the normalized port-channel_required
flag). -/
structure Row where
  source_device : String
  source_port : String
  switchport_type : String
  allowed_vlan : String
  native_vlan : String
  destination_device : String
  destination_port : String
  mtu_value : String
  pc_required : String
  vpc_group : String
  lag_key : String
deriving DecidableEq

/-- The per-cell cleanup in load_plan: remove zero-width and no-break spaces,
then strip. -/
def cleanCell (s : String) : String :=
  pyStrip (String.mk (s.data.filter (fun c => !(c.toNat = 0x200b) && !(c.toNat = 0xa0))))

/-- yn from the source. -/
def yn (s : String) : String :=
  if pyLower (pyStrip s) = "y" ∨ pyLower (pyStrip s) = "yes" ∨
     pyLower (pyStrip s) = "true" ∨ pyLower (pyStrip s) = "1" then "yes" else "no"

/-- load_plan: clean every cell, normalize the VLAN columns, normalize the
port-channel_required flag with yn. -/
def load_plan (rows : List Row) : List Row :=
  rows.map (fun r =>
    { source_device := cleanCell r.source_device
      source_port := cleanCell r.source_port
      switchport_type := cleanCell r.switchport_type
      allowed_vlan := normalize_separators (cleanCell r.allowed_vlan)
      native_vlan := normalize_separators (cleanCell r.native_vlan)
      destination_device := cleanCell r.destination_device
      destination_port := cleanCell r.destination_port
      mtu_value := cleanCell r.mtu_value
      pc_required := yn (cleanCell r.pc_required)
      vpc_group := cleanCell r.vpc_group
      lag_key := cleanCell r.lag_key })

/-- Shape check for the tail of the interface regex: \d+/\d+ and nothing else. -/
def ethTailOk (l : List Char) : Bool :=
  let a := l.takeWhile Char.isDigit
  let rest := l.dropWhile Char.isDigit
  match rest with
  | '/' :: r2 => !a.isEmpty && !r2.isEmpty && r2.all Char.isDigit
  | _ => false

/-- to_eth_canonical: strip, then rewrite a case-insensitive eth/ethernet name
with a \d+/\d+ tail to the canonical Ethernet form, else return unchanged. -/
def to_eth_canonical (s : String) : String :=
  let t := stripList s.data
  let low := t.map Char.toLower
  if low.take 8 = ("ethernet").data ∧ ethTailOk (t.drop 8) then
    String.mk (("Ethernet").data ++ t.drop 8)
  else if low.take 3 = ("eth").data ∧ ethTailOk (t.drop 3) then
    String.mk (("Ethernet").data ++ t.drop 3)
  else String.mk t

example : to_eth_canonical (" eth1/17 ") = "Ethernet1/17" := by decide
example : to_eth_canonical ("Ethernet1/17") = "Ethernet1/17" := by decide
example : to_eth_canonical ("port-channel 5") = "port-channel 5" := by decide

/-- Parsed facts of one device: results of get_used_portchannels,
get_used_vpc_ids_brief, get_used_vpc_ids_show_vpc, get_existing_vlans,
interface_is_in_pc (flag and reason), interface_link_up and parse_vpc_facts.
The raw query text is external input; this is its parsed form. -/
structure DeviceState where
  usedPortchannels : Finset Int
  usedVpcBrief : Finset Int
  usedVpcShow : Finset Int
  existingVlans : Finset Nat
  ifacePc : String → Bool × String
  ifaceUp : String → Bool
  vpcDomain : String
  vpcPeerOk : Bool
  vpcKeepaliveOk : Bool

/-- vpc_healthy: same nonempty domain on both peers, peer adjacency and
keepalive ok on both. -/
def vpcHealthy (f1 f2 : DeviceState) : Bool :=
  (f1.vpcDomain != "") && (f2.vpcDomain != "") && (f1.vpcDomain == f2.vpcDomain) &&
  f1.vpcPeerOk && f2.vpcPeerOk && f1.vpcKeepaliveOk && f2.vpcKeepaliveOk

/-- Loop body of pick_next_id: n remaining candidates starting at lo. -/
def pickGo (used : Finset Int) (lo : Int) : Nat → Option Int
  | 0 => none
  | n + 1 => if lo ∈ used then pickGo used (lo + 1) n else some lo

/-- pick_next_id: first identifier in [lo, hi] not in used; none models the
RuntimeError raise. -/
def pick_next_id (used : Finset Int) (lo hi : Int) : Option Int :=
  pickGo used lo (hi + 1 - lo).toNat

/-- The union of used ids computed in main for a group: Po summary, vpc brief
and show vpc tables on both peers. -/
def usedUnion (s1 s2 : DeviceState) : Finset Int :=
  s1.usedPortchannels ∪ s2.usedPortchannels ∪ s1.usedVpcBrief ∪ s2.usedVpcBrief ∪
  s1.usedVpcShow ∪ s2.usedVpcShow

/-- build_access_physical from the source. -/
def build_access_physical (desc vlan mtu : String) (pc_id : Int) : List String :=
  ["description " ++ desc, "switchport", "switchport host",
   "switchport access vlan " ++ vlan, "mtu " ++ mtu,
   "channel-group " ++ toString pc_id ++ " mode active", "no shutdown"]

/-- build_access_physical_no_pc from the source. -/
def build_access_physical_no_pc (desc vlan mtu : String) : List String :=
  ["description " ++ desc, "switchport", "switchport host",
   "switchport access vlan " ++ vlan, "mtu " ++ mtu, "no shutdown"]

/-- build_access_po from the source. -/
def build_access_po (desc_po vlan mtu : String) (pc_id : Int) : List String :=
  ["description " ++ desc_po, "switchport", "switchport access vlan " ++ vlan,
   "mtu " ++ mtu, "spanning-tree port type edge", "vpc " ++ toString pc_id, "no shutdown"]

/-- build_trunk_physical from the source. -/
def build_trunk_physical (desc allowed nat_v mtu : String) (pc_id : Int) : List String :=
  ["description " ++ desc, "switchport", "switchport mode trunk",
   "switchport trunk native vlan " ++ nat_v, "switchport trunk allowed vlan " ++ allowed,
   "spanning-tree port type edge trunk", "mtu " ++ mtu,
   "channel-group " ++ toString pc_id ++ " mode active", "no shutdown"]

/-- build_trunk_physical_no_pc from the source. -/
def build_trunk_physical_no_pc (desc allowed nat_v mtu : String) : List String :=
  ["description " ++ desc, "switchport", "switchport mode trunk",
   "switchport trunk native vlan " ++ nat_v, "switchport trunk allowed vlan " ++ allowed,
   "spanning-tree port type edge trunk", "mtu " ++ mtu, "no shutdown"]

/-- build_trunk_po from the source. -/
def build_trunk_po (desc_po allowed nat_v mtu : String) (pc_id : Int) : List String :=
  ["description " ++ desc_po, "switchport", "switchport mode trunk",
   "switchport trunk native vlan " ++ nat_v, "switchport trunk allowed vlan " ++ allowed,
   "spanning-tree port type edge trunk", "mtu " ++ mtu, "vpc " ++ toString pc_id, "no shutdown"]

/-- The native-vlan string computed in main: the first parsed native VLAN,
else the default "1". -/
def nativeStrOf (native : String) : String :=
  match parse_vlan_list native with
  | [] => "1"
  | v :: _ => toString v

/-- The allowed-vlan rendering in main: parsed, sorted, comma-joined. -/
def allowedExact (allowed : String) : String :=
  String.intercalate ("," ) ((parse_vlan_list allowed).map toString)

/-- Stable insertion into a list sorted by the boolean comparison le. -/
def insertSortedBy (le : α → α → Bool) (v : α) : List α → List α
  | [] => [v]
  | x :: xs => if le v x then v :: x :: xs else x :: insertSortedBy le v xs

/-- Sorting by a boolean comparison (models Python sorted / sort_values). -/
def sortByB (le : α → α → Bool) (l : List α) : List α := l.foldr (insertSortedBy le) []

/-- Lexicographic order on character lists (Python string comparison). -/
def charListLt : List Char → List Char → Bool
  | [], [] => false
  | [], _ :: _ => true
  | _ :: _, [] => false
  | a :: as, b :: bs => if a < b then true else if b < a then false else charListLt as bs

def strLtB (s t : String) : Bool := charListLt s.data t.data

def strLeB (s t : String) : Bool := !(strLtB t s)

/-- The (destination_port, source_port) sort used on each side before pairing. -/
def rowPairLe (a b : Row) : Bool :=
  if strLtB a.destination_port b.destination_port then true
  else if strLtB b.destination_port a.destination_port then false
  else strLeB a.source_port b.source_port

def sortRows (l : List Row) : List Row := sortByB rowPairLe l

/-- The implicit pairing key of _auto_bundle_key: source device, switchport
mode, normalized allowed VLANs, normalized native VLAN, MTU (destination port
deliberately excluded). -/
abbrev AutoKey := String × String × String × String × String

def autoKeyOf (r : Row) : AutoKey :=
  (pyLower (pyStrip r.source_device), pyLower (pyStrip r.switchport_type),
   normalize_separators r.allowed_vlan, normalize_separators r.native_vlan,
   pyStrip r.mtu_value)

def lagKeyOf (r : Row) : String := pyStrip r.lag_key

/-- Python tuple comparison on the implicit key. -/
def autoKeyLe (a b : AutoKey) : Bool :=
  if strLtB a.1 b.1 then true else if strLtB b.1 a.1 then false
  else if strLtB a.2.1 b.2.1 then true else if strLtB b.2.1 a.2.1 then false
  else if strLtB a.2.2.1 b.2.2.1 then true else if strLtB b.2.2.1 a.2.2.1 then false
  else if strLtB a.2.2.2.1 b.2.2.2.1 then true else if strLtB b.2.2.2.1 a.2.2.2.1 then false
  else strLeB a.2.2.2.2 b.2.2.2.2

/-- sorted(set(left keys) & set(right keys)): keys present on both sides,
de-duplicated and ascending. -/
def sharedKeys [DecidableEq K] (keyOf : Row → K) (le : K → K → Bool)
    (left right : List Row) : List K :=
  sortByB le (((left.map keyOf).filter (fun k => decide (k ∈ right.map keyOf))).dedup)

/-- For each key, pair the sorted left rows with the sorted right rows in
order (the zip in pair_rows_one_per_peer). -/
def pairsFor [DecidableEq K] (keyOf : Row → K) (ks : List K)
    (left right : List Row) : List (Row × Row) :=
  ks.flatMap (fun k =>
    (sortRows (left.filter (fun r => decide (keyOf r = k)))).zip
      (sortRows (right.filter (fun r => decide (keyOf r = k)))))

/-- The rows of the group destined to one peer (the destination-device
filter applied to each side). -/
def sideRows (g : List Row) (p : String) : List Row :=
  g.filter (fun r => pyStrip r.destination_device == p)

/-- pair_rows_one_per_peer from the source: split the group by destination
device, then pair by explicit lag_key when any row carries one, else by the
implicit attribute key; each key's rows pair in ascending
(destination_port, source_port) order. -/
def pair_rows_one_per_peer (g : List Row) (p0 p1 : String) : List (Row × Row) :=
  let left := sideRows g p0
  let right := sideRows g p1
  if left.any (fun r => lagKeyOf r != "") || right.any (fun r => lagKeyOf r != "") then
    pairsFor lagKeyOf (sharedKeys lagKeyOf strLeB left right) left right
  else
    pairsFor autoKeyOf (sharedKeys autoKeyOf autoKeyLe left right) left right

/-- One structured message per print statement that main can emit on the
modeled paths. -/
inductive Msg where
  | vlanMissing (dev : String) (miss : List Nat)
  | vlanFix
  | vlanPass
  | needVpcGroup
  | groupPeersErr (grp : String) (peers : List String)
  | vpcMismatch (grp h1 h2 : String)
  | vpcCheck (grp h1 h2 domain : String)
  | noPairable (grp : String)
  | skipMtu (grp mtu : String)
  | skipInPc (host iface why : String)
  | skipLinkUp (host iface : String)
  | groupExhausted (grp : String)
  | skipNoAccessVlan (grp allowed : String)
  | skipUnknownType (sw : String)
  | plan (grp : String) (pcId : Int) (h1 i1 h2 i2 sw : String)
  | dryCfg (host : String) (cfg : List String)
  | okCfg (grp : String) (pcId : Int)
  | skipMtuNo (dev iface mtu : String)
  | skipNoAccessVlanNo (allowed dev iface : String)
  | planNo (dev iface sw : String)
  | okNo (dev iface : String)
  | done
deriving DecidableEq

/-- Result of processing one bundle: emitted messages, configuration
submissions, the updated used-id set, and whether the group loop breaks
(identifier range exhausted). -/
structure StepOut where
  msgs : List Msg
  subs : List (String × List String)
  used : Finset Int
  stop : Bool

/-- The end of a bundle iteration: the [PLAN] message, then either the
dry-run configuration dump or the four run_cfg submissions (channel interface
to both peers, then each member interface to its peer). -/
def emitOut (p0 p1 grp : String) (dry : Bool) (pcId : Int) (iface1 iface2 sw : String)
    (cfgPo cfg1 cfg2 : List String) (used1 : Finset Int) : StepOut :=
  if dry then
    ⟨[.plan grp pcId p0 iface1 p1 iface2 sw,
      .dryCfg p0 (cfgPo ++ cfg1), .dryCfg p1 (cfgPo ++ cfg2)], [], used1, false⟩
  else
    ⟨[.plan grp pcId p0 iface1 p1 iface2 sw, .okCfg grp pcId],
     [(p0, cfgPo), (p1, cfgPo), (p0, cfg1), (p1, cfg2)], used1, false⟩

/-- Composition for an allocated bundle: the access/trunk dispatch of main,
building the channel-interface and member-interface statement sequences. -/
def stepCompose (p0 p1 grp : String) (dry : Bool) (used1 : Finset Int) (pcId : Int)
    (b : Row × Row) (iface1 iface2 sw allowed native mtu : String) : StepOut :=
  let l := b.1
  let r := b.2
  let desc1 := "## " ++ l.source_device ++ "  " ++ l.source_port ++ " ##"
  let desc2 := "## " ++ r.source_device ++ "  " ++ r.source_port ++ " ##"
  let descPo := "## " ++ l.source_device ++ " LACP ##"
  if sw = "access" then
    match parse_vlan_list allowed with
    | [] => ⟨[.skipNoAccessVlan grp allowed], [], used1, false⟩
    | v :: _ =>
      let vstr := toString v
      emitOut p0 p1 grp dry pcId iface1 iface2 sw
        (("interface port-channel " ++ toString pcId) :: build_access_po descPo vstr mtu pcId)
        (("interface " ++ iface1) :: build_access_physical desc1 vstr mtu pcId)
        (("interface " ++ iface2) :: build_access_physical desc2 vstr mtu pcId) used1
  else if sw = "trunk" then
    let natv := nativeStrOf native
    let allowedE := allowedExact allowed
    emitOut p0 p1 grp dry pcId iface1 iface2 sw
      (("interface port-channel " ++ toString pcId) :: build_trunk_po descPo allowedE natv mtu pcId)
      (("interface " ++ iface1) :: build_trunk_physical desc1 allowedE natv mtu pcId)
      (("interface " ++ iface2) :: build_trunk_physical desc2 allowedE natv mtu pcId) used1
  else ⟨[.skipUnknownType sw], [], used1, false⟩

/-- The body of the per-bundle loop in main for one (left row, right row)
bundle: MTU validity, already-bonded and link-up gates, identifier
allocation, then composition and preview-or-apply. -/
def stepBundle (st1 st2 : DeviceState) (p0 p1 grp : String) (dry : Bool) (lo hi : Int)
    (used : Finset Int) (b : Row × Row) : StepOut :=
  let l := b.1
  let r := b.2
  let sw := pyLower (pyStrip l.switchport_type)
  let allowed := pyStrip l.allowed_vlan
  let native := pyStrip l.native_vlan
  let mtu := pyStrip l.mtu_value
  if !pyIsDigit mtu then ⟨[.skipMtu grp mtu], [], used, false⟩
  else
    let iface1 := to_eth_canonical l.destination_port
    let iface2 := to_eth_canonical r.destination_port
    let q1 := st1.ifacePc iface1
    let q2 := st2.ifacePc iface2
    if q1.1 then ⟨[.skipInPc p0 iface1 q1.2], [], used, false⟩
    else if q2.1 then ⟨[.skipInPc p1 iface2 q2.2], [], used, false⟩
    else if st1.ifaceUp iface1 then ⟨[.skipLinkUp p0 iface1], [], used, false⟩
    else if st2.ifaceUp iface2 then ⟨[.skipLinkUp p1 iface2], [], used, false⟩
    else
      match pick_next_id used lo hi with
      | none => ⟨[.groupExhausted grp], [], used, true⟩
      | some pcId =>
        stepCompose p0 p1 grp dry (insert pcId used) pcId b iface1 iface2 sw allowed native mtu

/-- The per-bundle loop of a group, threading the used-id set and stopping on
exhaustion. -/
def processBundles (st1 st2 : DeviceState) (p0 p1 grp : String) (dry : Bool) (lo hi : Int) :
    List (Row × Row) → Finset Int → List Msg × List (String × List String)
  | [], _ => ([], [])
  | b :: bs, used =>
    let o := stepBundle st1 st2 p0 p1 grp dry lo hi used b
    if o.stop then (o.msgs, o.subs)
    else
      let rest := processBundles st1 st2 p0 p1 grp dry lo hi bs o.used
      (o.msgs ++ rest.1, o.subs ++ rest.2)

/-- sorted(set of stripped destination devices)) of a group. -/
def peersOf (g : List Row) : List String :=
  sortByB strLeB ((g.map (fun r => pyStrip r.destination_device)).dedup)

/-- One vpc_group iteration of main: two-peer check, vPC health check, used-id
union, pairing, then the bundle loop. -/
def processGroup (states : String → DeviceState) (dry : Bool) (lo hi : Int)
    (grp : String) (g : List Row) : List Msg × List (String × List String) :=
  match peersOf g with
  | [p0, p1] =>
    let st1 := states p0
    let st2 := states p1
    if vpcHealthy st1 st2 then
      let bundles := pair_rows_one_per_peer g p0 p1
      if bundles.isEmpty then ([.vpcCheck grp p0 p1 st1.vpcDomain, .noPairable grp], [])
      else
        let res := processBundles st1 st2 p0 p1 grp dry lo hi bundles (usedUnion st1 st2)
        (.vpcCheck grp p0 p1 st1.vpcDomain :: res.1, res.2)
    else ([.vpcMismatch grp p0 p1], [])
  | ps => ([.groupPeersErr grp ps], [])

/-- The groupby("vpc_group") of the rows with port-channel_required = yes:
keys ascending, each with its rows in table order. -/
def groupsOf (df : List Row) : List (String × List Row) :=
  let yes := df.filter (fun r => r.pc_required == "yes")
  (sortByB strLeB ((yes.map (fun r => r.vpc_group)).dedup)).map
    (fun k => (k, yes.filter (fun r => r.vpc_group == k)))

def groupLoop (states : String → DeviceState) (dry : Bool) (lo hi : Int) :
    List (String × List Row) → List Msg × List (String × List String)
  | [] => ([], [])
  | (k, g) :: rest =>
    let o := processGroup states dry lo hi k g
    let r := groupLoop states dry lo hi rest
    (o.1 ++ r.1, o.2 ++ r.2)

/-- One iteration of the single-interface (no port-channel) loop of main. -/
def processNoRow (states : String → DeviceState) (dry : Bool) (r : Row) :
    List Msg × List (String × List String) :=
  let dev := pyStrip r.destination_device
  let st := states dev
  let iface := to_eth_canonical r.destination_port
  let sw := pyLower (pyStrip r.switchport_type)
  let allowed := pyStrip r.allowed_vlan
  let native := pyStrip r.native_vlan
  let mtu := pyStrip r.mtu_value
  if !pyIsDigit mtu then ([.skipMtuNo dev iface mtu], [])
  else
    let q := st.ifacePc iface
    if q.1 then ([.skipInPc dev iface q.2], [])
    else if st.ifaceUp iface then ([.skipLinkUp dev iface], [])
    else
      let desc := "## " ++ pyStrip r.source_device ++ "  " ++ pyStrip r.source_port ++ " ##"
      if sw = "access" then
        match parse_vlan_list allowed with
        | [] => ([.skipNoAccessVlanNo allowed dev iface], [])
        | v :: _ =>
          let cfg := ("interface " ++ iface) ::
            build_access_physical_no_pc desc (toString v) mtu
          if dry then ([.planNo dev iface sw, .dryCfg dev cfg], [])
          else ([.planNo dev iface sw, .okNo dev iface], [(dev, cfg)])
      else if sw = "trunk" then
        let cfg := ("interface " ++ iface) ::
          build_trunk_physical_no_pc desc (allowedExact allowed) (nativeStrOf native) mtu
        if dry then ([.planNo dev iface sw, .dryCfg dev cfg], [])
        else ([.planNo dev iface sw, .okNo dev iface], [(dev, cfg)])
      else ([.skipUnknownType sw], [])

def noLoop (states : String → DeviceState) (dry : Bool) :
    List Row → List Msg × List (String × List String)
  | [] => ([], [])
  | r :: rest =>
    let o := processNoRow states dry r
    let t := noLoop states dry rest
    (o.1 ++ t.1, o.2 ++ t.2)

/-- required_vlans_per_device for one row: the first access VLAN, or the trunk
allowed set plus the first native VLAN. -/
def rowNeed (r : Row) : List Nat :=
  let st := pyLower (pyStrip r.switchport_type)
  if st = "access" then
    match parse_vlan_list (pyStrip r.allowed_vlan) with
    | [] => []
    | v :: _ => [v]
  else if st = "trunk" then
    insertAscAll (parse_vlan_list (pyStrip r.allowed_vlan))
      (match parse_vlan_list (pyStrip r.native_vlan) with
       | [] => []
       | v :: _ => [v])
  else []

/-- Destination devices in first-occurrence order (dict insertion order of
required_vlans_per_device). -/
def dedupFirstAux (seen : List String) : List String → List String
  | [] => []
  | x :: xs => if x ∈ seen then dedupFirstAux seen xs else x :: dedupFirstAux (x :: seen) xs

def needDevices (df : List Row) : List String :=
  dedupFirstAux [] (df.map (fun r => pyStrip r.destination_device))

/-- The required-VLAN set accumulated for one device over the whole table. -/
def needOf (df : List Row) (dev : String) : List Nat :=
  df.foldl (fun acc r =>
    if pyStrip r.destination_device = dev then insertAscAll (rowNeed r) acc else acc) []

/-- The sorted missing-VLAN list sorted(v for v in need if v not in have). -/
def missOf (df : List Row) (states : String → DeviceState) (dev : String) : List Nat :=
  (needOf df dev).filter (fun v => decide (v ∉ (states dev).existingVlans))

/-- The whole run: messages printed and configurations submitted. -/
structure RunOut where
  out : List Msg
  subs : List (String × List String)
deriving DecidableEq

/-- main from the source (modeled paths): load the plan, per-device VLAN
precheck with run abort, vpc_group label check, the vPC group loop, the
single-interface loop. -/
def runMain (raw : List Row) (states : String → DeviceState) (lo hi : Int)
    (dry : Bool) : RunOut :=
  let df := load_plan raw
  let pre := (needDevices df).filterMap (fun dev =>
    let miss := missOf df states dev
    if miss.isEmpty then none else some (Msg.vlanMissing dev miss))
  if !pre.isEmpty then ⟨pre ++ [.vlanFix], []⟩
  else
    let yes := df.filter (fun r => r.pc_required == "yes")
    if !yes.isEmpty && yes.any (fun r => pyStrip r.vpc_group == "") then
      ⟨[.vlanPass, .needVpcGroup], []⟩
    else
      let gl := groupLoop states dry lo hi (groupsOf df)
      let nl := noLoop states dry (df.filter (fun r => r.pc_required == "no"))
      ⟨.vlanPass :: (gl.1 ++ nl.1 ++ [.done]), gl.2 ++ nl.2⟩

/- ----------------------- allocator lemmas ----------------------- -/

theorem pickGo_eq_none (used : Finset Int) :
    ∀ (n : Nat) (lo : Int),
      (pickGo used lo n = none ↔ ∀ j : Int, lo ≤ j → j < lo + n → j ∈ used) := by
  intro n
  induction n with
  | zero =>
    intro lo
    simp only [pickGo]
    constructor
    · intro _ j h1 h2
      omega
    · intro _
      trivial
  | succ n ih =>
    intro lo
    simp only [pickGo]
    by_cases h : lo ∈ used
    · rw [if_pos h, ih (lo + 1)]
      constructor
      · intro hrec j h1 h2
        by_cases hj : j = lo
        · exact hj ▸ h
        · exact hrec j (by omega) (by omega)
      · intro hall j h1 h2
        exact hall j (by omega) (by omega)
    · rw [if_neg h]
      constructor
      · intro hsome
        exact absurd hsome (by simp)
      · intro hall
        exact absurd (hall lo (le_refl lo) (by omega)) h

theorem pickGo_eq_some (used : Finset Int) :
    ∀ (n : Nat) (lo i : Int), pickGo used lo n = some i →
      lo ≤ i ∧ i < lo + n ∧ i ∉ used ∧ ∀ j : Int, lo ≤ j → j < i → j ∈ used := by
  intro n
  induction n with
  | zero =>
    intro lo i h
    simp [pickGo] at h
  | succ n ih =>
    intro lo i h
    simp only [pickGo] at h
    by_cases hlo : lo ∈ used
    · rw [if_pos hlo] at h
      obtain ⟨h1, h2, h3, h4⟩ := ih (lo + 1) i h
      refine ⟨by omega, by omega, h3, ?_⟩
      intro j hj1 hj2
      by_cases hj : j = lo
      · exact hj ▸ hlo
      · exact h4 j (by omega) hj2
    · rw [if_neg hlo] at h
      obtain rfl : lo = i := by simpa using h
      exact ⟨le_refl _, by omega, hlo, fun j hj1 hj2 => absurd (lt_of_le_of_lt hj1 hj2) (lt_irrefl _)⟩

/-- C1: pick_next_id with an empty reserved set returns the smallest integer
in [lo, hi] not in the used set, and fails (returns none, modelling the
raise) exactly when every integer of [lo, hi] is used. -/
theorem pick_next_id_least (used : Finset Int) (lo hi : Int) :
    (pick_next_id used lo hi = none ↔ ∀ j : Int, lo ≤ j → j ≤ hi → j ∈ used) ∧
    (∀ i, pick_next_id used lo hi = some i →
      lo ≤ i ∧ i ≤ hi ∧ i ∉ used ∧ ∀ j : Int, lo ≤ j → j < i → j ∈ used) := by
  unfold pick_next_id
  by_cases hle : lo ≤ hi + 1
  · have htn : ((hi + 1 - lo).toNat : Int) = hi + 1 - lo := Int.toNat_of_nonneg (by omega)
    constructor
    · rw [pickGo_eq_none]
      constructor
      · intro hall j h1 h2
        exact hall j h1 (by omega)
      · intro hall j h1 h2
        exact hall j h1 (by omega)
    · intro i h
      obtain ⟨h1, h2, h3, h4⟩ := pickGo_eq_some used _ lo i h
      exact ⟨h1, by omega, h3, h4⟩
  · have htn : (hi + 1 - lo).toNat = 0 := by omega
    rw [htn]
    constructor
    · simp only [pickGo]
      constructor
      · intro _ j h1 h2
        omega
      · intro _
        trivial
    · intro i h
      simp [pickGo] at h

/-- Witness for C1 at used = {1, 2}, range [1, 5]: the allocator returns 3,
which is in range and free. -/
theorem pick_next_id_least_witness :
    pick_next_id ({1, 2} : Finset Int) 1 5 = some 3 ∧
      (3 : Int) ≤ 5 ∧ (3 : Int) ∉ ({1, 2} : Finset Int) :=
  ⟨by decide,
   ((pick_next_id_least ({1, 2} : Finset Int) 1 5).2 3 (by decide)).2.1,
   ((pick_next_id_least ({1, 2} : Finset Int) 1 5).2 3 (by decide)).2.2.1⟩

/- ----------------------- sorted-list lemmas ----------------------- -/

theorem mem_insertAsc {x v : Nat} : ∀ {l : List Nat}, x ∈ insertAsc v l ↔ x = v ∨ x ∈ l := by
  intro l
  induction l with
  | nil => simp [insertAsc]
  | cons y ys ih =>
    simp only [insertAsc]
    by_cases h1 : v < y
    · simp [h1]
    · rw [if_neg h1]
      by_cases h2 : v = y
      · subst h2
        simp only [if_pos rfl]
        constructor
        · intro h
          exact Or.inr h
        · rintro (rfl | h)
          · exact List.mem_cons_self _ _
          · exact h
      · rw [if_neg h2]
        simp only [List.mem_cons, ih]
        tauto

theorem head_insertAsc (v : Nat) (l : List Nat) :
    (insertAsc v l).head? = some v ∨ (insertAsc v l).head? = l.head? := by
  cases l with
  | nil => simp [insertAsc]
  | cons y ys =>
    simp only [insertAsc]
    by_cases h1 : v < y
    · simp [h1]
    · rw [if_neg h1]
      by_cases h2 : v = y
      · simp [h2]
      · simp [h2]

theorem chain'_insertAsc {v : Nat} :
    ∀ {l : List Nat}, List.Chain' (· < ·) l → List.Chain' (· < ·) (insertAsc v l) := by
  intro l
  induction l with
  | nil => intro _; simp [insertAsc]
  | cons y ys ih =>
    intro hc
    have hys : List.Chain' (· < ·) ys := hc.tail
    simp only [insertAsc]
    by_cases h1 : v < y
    · rw [if_pos h1]
      exact List.Chain'.cons h1 hc
    · rw [if_neg h1]
      by_cases h2 : v = y
      · rw [if_pos h2]
        exact hc
      · rw [if_neg h2]
        have hyv : y < v := by omega
        rw [List.chain'_cons']
        refine ⟨?_, ih hys⟩
        intro z hz
        rcases head_insertAsc v ys with hh | hh
        · rw [hh] at hz
          have hzv : v = z := by simpa using hz
          subst hzv
          exact hyv
        · rw [hh] at hz
          exact (List.chain'_cons'.mp hc).1 z hz

theorem mem_insertAscAll {x : Nat} :
    ∀ {l acc : List Nat}, x ∈ insertAscAll l acc ↔ x ∈ l ∨ x ∈ acc := by
  intro l
  induction l with
  | nil => simp [insertAscAll]
  | cons v vs ih =>
    intro acc
    simp only [insertAscAll, List.foldl_cons]
    rw [show List.foldl (fun a v => insertAsc v a) (insertAsc v acc) vs =
          insertAscAll vs (insertAsc v acc) from rfl, ih, mem_insertAsc]
    simp only [List.mem_cons]
    tauto

theorem chain'_insertAscAll :
    ∀ {l acc : List Nat}, List.Chain' (· < ·) acc → List.Chain' (· < ·) (insertAscAll l acc) := by
  intro l
  induction l with
  | nil => intro acc h; exact h
  | cons v vs ih =>
    intro acc h
    simp only [insertAscAll, List.foldl_cons]
    exact ih (chain'_insertAsc h)

theorem vlanStep_inv {acc : List Nat} (part : List Char)
    (h1 : List.Chain' (· < ·) acc) (h2 : ∀ x ∈ acc, 1 ≤ x ∧ x ≤ 4094) :
    List.Chain' (· < ·) (vlanStep acc part) ∧ ∀ x ∈ vlanStep acc part, 1 ≤ x ∧ x ≤ 4094 := by
  simp only [vlanStep]
  split
  · exact ⟨h1, h2⟩
  · split
    · split
      · split
        · rename_i hrange
          constructor
          · exact chain'_insertAscAll h1
          · intro x hx
            rcases mem_insertAscAll.mp hx with hx | hx
            · rw [List.mem_range'] at hx
              omega
            · exact h2 x hx
        · exact ⟨h1, h2⟩
      · exact ⟨h1, h2⟩
    · split
      · split
        · rename_i hrange
          constructor
          · exact chain'_insertAsc h1
          · intro x hx
            rcases mem_insertAsc.mp hx with rfl | hx
            · omega
            · exact h2 x hx
        · exact ⟨h1, h2⟩
      · exact ⟨h1, h2⟩

theorem vlanFold_inv :
    ∀ (parts : List (List Char)) (acc : List Nat),
      List.Chain' (· < ·) acc → (∀ x ∈ acc, 1 ≤ x ∧ x ≤ 4094) →
      List.Chain' (· < ·) (parts.foldl vlanStep acc) ∧
        ∀ x ∈ parts.foldl vlanStep acc, 1 ≤ x ∧ x ≤ 4094 := by
  intro parts
  induction parts with
  | nil => intro acc h1 h2; exact ⟨h1, h2⟩
  | cons p ps ih =>
    intro acc h1 h2
    obtain ⟨h1p, h2p⟩ := vlanStep_inv p h1 h2
    exact ih _ h1p h2p

/-- C10 (amended): parse_vlan_list always returns a strictly ascending,
duplicate-free list of ids, all in [1, 4094]. -/
theorem parse_vlan_list_sorted_in_range (s : String) :
    List.Chain' (· < ·) (parse_vlan_list s) ∧
      ∀ v ∈ parse_vlan_list s, 1 ≤ v ∧ v ≤ 4094 := by
  simp only [parse_vlan_list]
  split
  · simp
  · split
    · constructor
      · exact chain'_insertAscAll (by simp)
      · intro v hv
        rcases mem_insertAscAll.mp hv with hv | hv
        · rcases List.mem_filter.mp hv with ⟨_, hr⟩
          exact of_decide_eq_true hr
        · simp at hv
    · exact vlanFold_inv _ [] (by simp) (by simp)

/-- Witness for C10 (amended) at the concrete input "10,20": 10 is returned
and lies in [1, 4094]. -/
theorem parse_vlan_list_sorted_in_range_witness :
    (10 ∈ parse_vlan_list ("10,20")) ∧ 1 ≤ 10 ∧ 10 ≤ 4094 :=
  ⟨by decide, (parse_vlan_list_sorted_in_range ("10,20")).2 10 (by decide)⟩

/-- Modelled from the claim's wording, not from the source: the maximal digit
runs of a string, each taken whole as one token (fuel-driven). -/
def maximalRunsF : Nat → List Char → List (List Char)
  | 0, _ => []
  | _ + 1, [] => []
  | fuel + 1, c :: cs =>
    if c.isDigit then (c :: cs.takeWhile Char.isDigit) :: maximalRunsF fuel (cs.dropWhile Char.isDigit)
    else maximalRunsF fuel cs

/-- The claim's reading of the long no-separator branch: every maximal digit
run becomes one candidate id, then out-of-range ids are dropped. -/
def specLongParse (s : String) : List Nat :=
  insertAscAll (((maximalRunsF s.data.length s.data).map digitsToNat).filter
    (fun v => decide (1 ≤ v ∧ v ≤ 4094))) []

/-- Counterexample to C10 as stated: on "12345" (no comma or hyphen, longer
than four characters) the code extracts greedy four-digit chunks, returning
[5, 1234], while the claim's maximal-digit-run reading would return []
(12345 is out of range). -/
theorem parse_vlan_list_not_maximal_runs :
    parse_vlan_list ("12345") = [5, 1234] ∧ specLongParse ("12345") = [] ∧
      parse_vlan_list ("12345") ≠ specLongParse ("12345") := by decide

/- ----------------------- composer lemmas ----------------------- -/

/-- A configuration line is a native-VLAN statement when it starts with the
trunk native-vlan keyword sequence. -/
def isNativeStmt (line : String) : Bool :=
  ("switchport trunk native vlan").data.isPrefixOf line.data

/-- C3 (amended): access-mode composition never contains a native-VLAN
statement; trunk-mode composition with an empty (unparseable) native-VLAN
input does not omit the statement but emits it with the default value 1. -/
theorem access_no_native_trunk_defaults
    (desc vlan allowed mtu native : String) (pc : Int) :
    (∀ line ∈ build_access_physical desc vlan mtu pc, isNativeStmt line = false) ∧
    (∀ line ∈ build_access_physical_no_pc desc vlan mtu, isNativeStmt line = false) ∧
    (∀ line ∈ build_access_po desc vlan mtu pc, isNativeStmt line = false) ∧
    (parse_vlan_list native = [] →
      ("switchport trunk native vlan 1") ∈
          build_trunk_physical desc allowed (nativeStrOf native) mtu pc ∧
        ("switchport trunk native vlan 1") ∈
          build_trunk_po desc allowed (nativeStrOf native) mtu pc ∧
        ("switchport trunk native vlan 1") ∈
          build_trunk_physical_no_pc desc allowed (nativeStrOf native) mtu) := by
  refine ⟨?_, ?_, ?_, ?_⟩
  · intro line h
    fin_cases h <;> rfl
  · intro line h
    fin_cases h <;> rfl
  · intro line h
    fin_cases h <;> rfl
  · intro hn
    have h1 : nativeStrOf native = "1" := by simp [nativeStrOf, hn]
    rw [h1]
    refine ⟨?_, ?_, ?_⟩
    · exact List.mem_cons_of_mem _ (List.mem_cons_of_mem _ (List.mem_cons_of_mem _
        (List.mem_cons_self _ _)))
    · exact List.mem_cons_of_mem _ (List.mem_cons_of_mem _ (List.mem_cons_of_mem _
        (List.mem_cons_self _ _)))
    · exact List.mem_cons_of_mem _ (List.mem_cons_of_mem _ (List.mem_cons_of_mem _
        (List.mem_cons_self _ _)))

/-- Witness for C3 (amended): with the empty native input (which parses to no
VLAN id), the trunk channel-interface composition carries the defaulted
native-VLAN statement. -/
theorem access_no_native_trunk_defaults_witness :
    parse_vlan_list ("") = [] ∧
      ("switchport trunk native vlan 1") ∈
        build_trunk_po ("## SRV1 LACP ##") ("10,20") (nativeStrOf ("")) ("9216") 3 :=
  ⟨by decide,
   ((access_no_native_trunk_defaults ("## SRV1 LACP ##") ("10") ("10,20") ("9216") ("") 3).2.2.2
     (by decide)).2.1⟩

/-- Counterexample to C3 as stated: a trunk member-interface composition with
an empty native-VLAN input (parse_vlan_list returns no id) still contains a
native-VLAN statement, with the fabricated default value 1. -/
theorem trunk_empty_native_not_omitted :
    parse_vlan_list ("") = [] ∧
      ("switchport trunk native vlan 1") ∈
        build_trunk_physical ("## SRV1  eth0 ##") ("10,20") (nativeStrOf ("")) ("9216") 7 := by
  decide

/- ----------------------- pairing lemmas ----------------------- -/

theorem perm_insertSortedBy (le : α → α → Bool) (v : α) :
    ∀ l : List α, List.Perm (insertSortedBy le v l) (v :: l) := by
  intro l
  induction l with
  | nil => simp [insertSortedBy]
  | cons x xs ih =>
    simp only [insertSortedBy]
    by_cases h : le v x
    · rw [if_pos h]
    · rw [if_neg h]
      exact (ih.cons x).trans (List.Perm.swap v x xs)

theorem perm_sortByB (le : α → α → Bool) : ∀ l : List α, List.Perm (sortByB le l) l := by
  intro l
  induction l with
  | nil => simp [sortByB]
  | cons x xs ih =>
    simp only [sortByB, List.foldr_cons]
    exact (perm_insertSortedBy le x _).trans (ih.cons x)

theorem mem_sortByB {le : α → α → Bool} {l : List α} {a : α} :
    a ∈ sortByB le l ↔ a ∈ l :=
  (perm_sortByB le l).mem_iff

theorem mem_sortRows {l : List Row} {a : Row} : a ∈ sortRows l ↔ a ∈ l :=
  mem_sortByB

theorem sortRows_length (l : List Row) : (sortRows l).length = l.length :=
  (perm_sortByB rowPairLe l).length_eq

theorem zip_getElem?_of {l1 : List α} {l2 : List β} :
    ∀ {i : Nat} {a : α} {b : β}, l1[i]? = some a → l2[i]? = some b →
      (l1.zip l2)[i]? = some (a, b) := by
  induction l1 generalizing l2 with
  | nil => intro i a b h1 _; simp at h1
  | cons x xs ih =>
    intro i a b h1 h2
    cases l2 with
    | nil => simp at h2
    | cons y ys =>
      cases i with
      | zero =>
        simp only [List.getElem?_cons_zero, Option.some.injEq] at h1 h2
        simp [List.zip_cons_cons, h1, h2]
      | succ n =>
        simp only [List.getElem?_cons_succ] at h1 h2
        simpa [List.zip_cons_cons] using ih h1 h2

theorem pairsFor_chunk_key [DecidableEq K] {keyOf : Row → K} {k : K}
    {left right : List Row} {p : Row × Row}
    (h : p ∈ (sortRows (left.filter (fun r => decide (keyOf r = k)))).zip
      (sortRows (right.filter (fun r => decide (keyOf r = k))))) :
    keyOf p.1 = k ∧ keyOf p.2 = k ∧ p.1 ∈ left ∧ p.2 ∈ right := by
  obtain ⟨a, b⟩ := p
  obtain ⟨h1, h2⟩ := List.of_mem_zip h
  rw [mem_sortRows, List.mem_filter] at h1 h2
  exact ⟨of_decide_eq_true h1.2, of_decide_eq_true h2.2, h1.1, h2.1⟩

theorem pairsFor_mem [DecidableEq K] {keyOf : Row → K} {ks : List K}
    {left right : List Row} {p : Row × Row} (h : p ∈ pairsFor keyOf ks left right) :
    p.1 ∈ left ∧ p.2 ∈ right ∧ ∃ k ∈ ks, keyOf p.1 = k ∧ keyOf p.2 = k := by
  unfold pairsFor at h
  rw [List.mem_flatMap] at h
  obtain ⟨k, hk, hp⟩ := h
  obtain ⟨e1, e2, e3, e4⟩ := pairsFor_chunk_key hp
  exact ⟨e3, e4, k, hk, e1, e2⟩

theorem pairsFor_filter [DecidableEq K] (keyOf : Row → K) (k : K) :
    ∀ (ks : List K), ks.Nodup → k ∈ ks → ∀ (left right : List Row),
      (pairsFor keyOf ks left right).filter (fun p => decide (keyOf p.1 = k)) =
        (sortRows (left.filter (fun r => decide (keyOf r = k)))).zip
          (sortRows (right.filter (fun r => decide (keyOf r = k)))) := by
  intro ks
  induction ks with
  | nil => intro _ hk; cases hk
  | cons k0 ktl ih =>
    intro hnd hk left right
    rw [show pairsFor keyOf (k0 :: ktl) left right =
      ((sortRows (left.filter (fun r => decide (keyOf r = k0)))).zip
        (sortRows (right.filter (fun r => decide (keyOf r = k0))))) ++
      pairsFor keyOf ktl left right from rfl]
    rw [List.filter_append]
    rcases List.mem_cons.mp hk with rfl | hk0
    · have h1 : ((sortRows (left.filter (fun r => decide (keyOf r = k)))).zip
          (sortRows (right.filter (fun r => decide (keyOf r = k))))).filter
            (fun p => decide (keyOf p.1 = k)) =
          (sortRows (left.filter (fun r => decide (keyOf r = k)))).zip
            (sortRows (right.filter (fun r => decide (keyOf r = k)))) := by
        apply List.filter_eq_self.mpr
        intro p hp
        exact decide_eq_true (pairsFor_chunk_key hp).1
      have h2 : (pairsFor keyOf ktl left right).filter (fun p => decide (keyOf p.1 = k)) = [] := by
        apply List.filter_eq_nil_iff.mpr
        intro p hp
        obtain ⟨_, _, k2, hk2, he, _⟩ := pairsFor_mem hp
        have : k2 ≠ k := fun hcon => (List.nodup_cons.mp hnd).1 (hcon ▸ hk2)
        simp [he, this]
      rw [h1, h2, List.append_nil]
    · have hne : k ≠ k0 := fun hcon => (List.nodup_cons.mp hnd).1 (hcon ▸ hk0)
      have h1 : ((sortRows (left.filter (fun r => decide (keyOf r = k0)))).zip
          (sortRows (right.filter (fun r => decide (keyOf r = k0))))).filter
            (fun p => decide (keyOf p.1 = k)) = [] := by
        apply List.filter_eq_nil_iff.mpr
        intro p hp
        have := (pairsFor_chunk_key hp).1
        simp [this, hne.symm]
      rw [h1, ih (List.nodup_cons.mp hnd).2 hk0 left right, List.nil_append]

theorem sharedKeys_nodup [DecidableEq K] (keyOf : Row → K) (le : K → K → Bool)
    (left right : List Row) : (sharedKeys keyOf le left right).Nodup :=
  ((perm_sortByB le _).nodup_iff).mpr (List.nodup_dedup _)

theorem mem_sharedKeys [DecidableEq K] {keyOf : Row → K} {le : K → K → Bool}
    {left right : List Row} {k : K} :
    k ∈ sharedKeys keyOf le left right ↔ k ∈ left.map keyOf ∧ k ∈ right.map keyOf := by
  unfold sharedKeys
  rw [mem_sortByB, List.mem_dedup, List.mem_filter]
  simp

theorem pairsFor_stable [DecidableEq K] (keyOf : Row → K) (le : K → K → Bool)
    (left right : List Row) (k : K) (hl : k ∈ left.map keyOf) (hr : k ∈ right.map keyOf) :
    (pairsFor keyOf (sharedKeys keyOf le left right) left right).filter
        (fun p => decide (keyOf p.1 = k)) =
      (sortRows (left.filter (fun r => decide (keyOf r = k)))).zip
        (sortRows (right.filter (fun r => decide (keyOf r = k)))) ∧
    ∀ (i : Nat) (a b : Row),
      (sortRows (left.filter (fun r => decide (keyOf r = k))))[i]? = some a →
      (sortRows (right.filter (fun r => decide (keyOf r = k))))[i]? = some b →
      ((pairsFor keyOf (sharedKeys keyOf le left right) left right).filter
        (fun p => decide (keyOf p.1 = k)))[i]? = some (a, b) := by
  have hmem : k ∈ sharedKeys keyOf le left right := mem_sharedKeys.mpr ⟨hl, hr⟩
  have hfil := pairsFor_filter keyOf k (sharedKeys keyOf le left right)
    (sharedKeys_nodup keyOf le left right) hmem left right
  refine ⟨hfil, ?_⟩
  intro i a b ha hb
  rw [hfil]
  exact zip_getElem?_of ha hb

theorem mem_sideRows {g : List Row} {p : String} {r : Row} :
    r ∈ sideRows g p ↔ r ∈ g ∧ pyStrip r.destination_device = p := by
  unfold sideRows
  rw [List.mem_filter]
  simp

/-- C5: in both the explicit lag_key branch and the implicit attribute-key
branch, for every key present on both sides, the resolver pairs the i-th row
of the left side sorted ascending by (destination port, source port) with the
i-th right row sorted the same way: the pairs under that key are exactly the
index-aligned zip of the two sorted sides, so the first left row is only ever
paired with the first right row (no cross-pairing). -/
theorem pairing_order_stable (g : List Row) (p0 p1 : String) :
    (((sideRows g p0).any (fun r => lagKeyOf r != "") ||
        (sideRows g p1).any (fun r => lagKeyOf r != "")) = true →
      ∀ k : String, k ∈ (sideRows g p0).map lagKeyOf → k ∈ (sideRows g p1).map lagKeyOf →
        (pair_rows_one_per_peer g p0 p1).filter (fun p => decide (lagKeyOf p.1 = k)) =
          (sortRows ((sideRows g p0).filter (fun r => decide (lagKeyOf r = k)))).zip
            (sortRows ((sideRows g p1).filter (fun r => decide (lagKeyOf r = k)))) ∧
        ∀ (i : Nat) (a b : Row),
          (sortRows ((sideRows g p0).filter (fun r => decide (lagKeyOf r = k))))[i]? = some a →
          (sortRows ((sideRows g p1).filter (fun r => decide (lagKeyOf r = k))))[i]? = some b →
          ((pair_rows_one_per_peer g p0 p1).filter
            (fun p => decide (lagKeyOf p.1 = k)))[i]? = some (a, b)) ∧
    (((sideRows g p0).any (fun r => lagKeyOf r != "") ||
        (sideRows g p1).any (fun r => lagKeyOf r != "")) = false →
      ∀ k : AutoKey, k ∈ (sideRows g p0).map autoKeyOf → k ∈ (sideRows g p1).map autoKeyOf →
        (pair_rows_one_per_peer g p0 p1).filter (fun p => decide (autoKeyOf p.1 = k)) =
          (sortRows ((sideRows g p0).filter (fun r => decide (autoKeyOf r = k)))).zip
            (sortRows ((sideRows g p1).filter (fun r => decide (autoKeyOf r = k)))) ∧
        ∀ (i : Nat) (a b : Row),
          (sortRows ((sideRows g p0).filter (fun r => decide (autoKeyOf r = k))))[i]? = some a →
          (sortRows ((sideRows g p1).filter (fun r => decide (autoKeyOf r = k))))[i]? = some b →
          ((pair_rows_one_per_peer g p0 p1).filter
            (fun p => decide (autoKeyOf p.1 = k)))[i]? = some (a, b)) := by
  constructor
  · intro hcond k hl hr
    have hpair : pair_rows_one_per_peer g p0 p1 =
        pairsFor lagKeyOf (sharedKeys lagKeyOf strLeB (sideRows g p0) (sideRows g p1))
          (sideRows g p0) (sideRows g p1) := by
      simp only [pair_rows_one_per_peer]
      rw [if_pos hcond]
    rw [hpair]
    exact pairsFor_stable lagKeyOf strLeB (sideRows g p0) (sideRows g p1) k hl hr
  · intro hcond k hl hr
    have hpair : pair_rows_one_per_peer g p0 p1 =
        pairsFor autoKeyOf (sharedKeys autoKeyOf autoKeyLe (sideRows g p0) (sideRows g p1))
          (sideRows g p0) (sideRows g p1) := by
      simp only [pair_rows_one_per_peer]
      rw [if_neg (by rw [hcond]; exact Bool.false_ne_true)]
    rw [hpair]
    exact pairsFor_stable autoKeyOf autoKeyLe (sideRows g p0) (sideRows g p1) k hl hr

/-- Row constructor helper for concrete scenarios. -/
def mkRow (sd sp st av nv dd dp mtu pcr vg lk : String) : Row :=
  ⟨sd, sp, st, av, nv, dd, dp, mtu, pcr, vg, lk⟩

def c5rows : List Row :=
  [ mkRow ("srv1") ("e1") ("access") ("10") ("") ("A") ("Eth1/1") ("9216") ("yes") ("g1") ("x"),
    mkRow ("srv1") ("e2") ("access") ("10") ("") ("A") ("Eth1/3") ("9216") ("yes") ("g1") ("x"),
    mkRow ("srv1") ("e3") ("access") ("10") ("") ("B") ("Eth1/2") ("9216") ("yes") ("g1") ("x"),
    mkRow ("srv1") ("e4") ("access") ("10") ("") ("B") ("Eth1/4") ("9216") ("yes") ("g1") ("x") ]

/-- Witness for C5: in a concrete four-row group keyed by lag_key "x", the
first sorted left row (port Eth1/1) pairs with the first sorted right row
(port Eth1/2), not with Eth1/4. -/
theorem pairing_order_stable_witness :
    ((pair_rows_one_per_peer c5rows ("A") ("B")).filter
        (fun p => decide (lagKeyOf p.1 = "x")))[0]? =
      some (c5rows.get ⟨0, by decide⟩, c5rows.get ⟨2, by decide⟩) :=
  ((pairing_order_stable c5rows ("A") ("B")).1 (by decide) "x" (by decide) (by decide)).2
    0 _ _ (by decide) (by decide)

theorem pairsFor_no_right_match [DecidableEq K] {keyOf : Row → K} {ks : List K}
    {left right : List Row} {r : Row} (hnr : r ∉ right)
    (h : ∀ r2 ∈ right, keyOf r2 ≠ keyOf r) :
    ∀ p ∈ pairsFor keyOf ks left right, p.1 ≠ r ∧ p.2 ≠ r := by
  intro p hp
  obtain ⟨h1, h2, k, _, hk1, hk2⟩ := pairsFor_mem hp
  constructor
  · intro he
    exact h p.2 h2 (by rw [hk2, ← hk1, he])
  · intro he
    exact hnr (he ▸ h2)

theorem pairsFor_no_left_match [DecidableEq K] {keyOf : Row → K} {ks : List K}
    {left right : List Row} {r : Row} (hnl : r ∉ left)
    (h : ∀ r2 ∈ left, keyOf r2 ≠ keyOf r) :
    ∀ p ∈ pairsFor keyOf ks left right, p.1 ≠ r ∧ p.2 ≠ r := by
  intro p hp
  obtain ⟨h1, h2, k, _, hk1, hk2⟩ := pairsFor_mem hp
  constructor
  · intro he
    exact hnl (he ▸ h1)
  · intro he
    exact h p.1 h1 (by rw [hk1, ← hk2, he])

theorem not_mem_other_side {g : List Row} {p0 p1 : String} {r : Row}
    (hne : p0 ≠ p1) (hmem : r ∈ sideRows g p0) : r ∉ sideRows g p1 := by
  intro hc
  exact hne (((mem_sideRows.mp hmem).2.symm.trans (mem_sideRows.mp hc).2))

/-- C6 (amended): a row whose pairing key — lag_key in the explicit branch,
the attribute key in the implicit branch — is present on only one of the two
peer sides appears in no bundle produced by pair_rows_one_per_peer; it is not
individually reported: the only related report is the single group-level
no-pairable message, emitted when the group yields no bundles at all. -/
theorem unmatched_row_no_bundle (g : List Row) (p0 p1 : String) (r : Row) (hne : p0 ≠ p1) :
    (r ∈ sideRows g p0 →
      ((sideRows g p0).any (fun x => lagKeyOf x != "") ||
        (sideRows g p1).any (fun x => lagKeyOf x != "")) = true →
      (∀ r2 ∈ sideRows g p1, lagKeyOf r2 ≠ lagKeyOf r) →
      ∀ p ∈ pair_rows_one_per_peer g p0 p1, p.1 ≠ r ∧ p.2 ≠ r) ∧
    (r ∈ sideRows g p1 →
      ((sideRows g p0).any (fun x => lagKeyOf x != "") ||
        (sideRows g p1).any (fun x => lagKeyOf x != "")) = true →
      (∀ r2 ∈ sideRows g p0, lagKeyOf r2 ≠ lagKeyOf r) →
      ∀ p ∈ pair_rows_one_per_peer g p0 p1, p.1 ≠ r ∧ p.2 ≠ r) ∧
    (r ∈ sideRows g p0 →
      ((sideRows g p0).any (fun x => lagKeyOf x != "") ||
        (sideRows g p1).any (fun x => lagKeyOf x != "")) = false →
      (∀ r2 ∈ sideRows g p1, autoKeyOf r2 ≠ autoKeyOf r) →
      ∀ p ∈ pair_rows_one_per_peer g p0 p1, p.1 ≠ r ∧ p.2 ≠ r) ∧
    (r ∈ sideRows g p1 →
      ((sideRows g p0).any (fun x => lagKeyOf x != "") ||
        (sideRows g p1).any (fun x => lagKeyOf x != "")) = false →
      (∀ r2 ∈ sideRows g p0, autoKeyOf r2 ≠ autoKeyOf r) →
      ∀ p ∈ pair_rows_one_per_peer g p0 p1, p.1 ≠ r ∧ p.2 ≠ r) ∧
    (((sideRows g p0).any (fun x => lagKeyOf x != "") ||
        (sideRows g p1).any (fun x => lagKeyOf x != "")) = true →
      ∀ k : String, k ∈ (sideRows g p0).map lagKeyOf → k ∈ (sideRows g p1).map lagKeyOf →
      ((pair_rows_one_per_peer g p0 p1).filter (fun p => decide (lagKeyOf p.1 = k))).length =
        min ((sideRows g p0).filter (fun x => decide (lagKeyOf x = k))).length
          ((sideRows g p1).filter (fun x => decide (lagKeyOf x = k))).length) ∧
    (((sideRows g p0).any (fun x => lagKeyOf x != "") ||
        (sideRows g p1).any (fun x => lagKeyOf x != "")) = false →
      ∀ k : AutoKey, k ∈ (sideRows g p0).map autoKeyOf → k ∈ (sideRows g p1).map autoKeyOf →
      ((pair_rows_one_per_peer g p0 p1).filter (fun p => decide (autoKeyOf p.1 = k))).length =
        min ((sideRows g p0).filter (fun x => decide (autoKeyOf x = k))).length
          ((sideRows g p1).filter (fun x => decide (autoKeyOf x = k))).length) ∧
    (∀ (states : String → DeviceState) (dry : Bool) (lo hi : Int) (grp : String),
      peersOf g = [p0, p1] → vpcHealthy (states p0) (states p1) = true →
      pair_rows_one_per_peer g p0 p1 = [] →
      Msg.noPairable grp ∈ (processGroup states dry lo hi grp g).1) := by
  refine ⟨?_, ?_, ?_, ?_, ?_, ?_, ?_⟩
  · intro hmem hcond hno
    have hpair : pair_rows_one_per_peer g p0 p1 =
        pairsFor lagKeyOf (sharedKeys lagKeyOf strLeB (sideRows g p0) (sideRows g p1))
          (sideRows g p0) (sideRows g p1) := by
      simp only [pair_rows_one_per_peer]
      rw [if_pos hcond]
    rw [hpair]
    exact pairsFor_no_right_match (not_mem_other_side hne hmem) hno
  · intro hmem hcond hno
    have hpair : pair_rows_one_per_peer g p0 p1 =
        pairsFor lagKeyOf (sharedKeys lagKeyOf strLeB (sideRows g p0) (sideRows g p1))
          (sideRows g p0) (sideRows g p1) := by
      simp only [pair_rows_one_per_peer]
      rw [if_pos hcond]
    rw [hpair]
    exact pairsFor_no_left_match (not_mem_other_side hne.symm hmem) hno
  · intro hmem hcond hno
    have hpair : pair_rows_one_per_peer g p0 p1 =
        pairsFor autoKeyOf (sharedKeys autoKeyOf autoKeyLe (sideRows g p0) (sideRows g p1))
          (sideRows g p0) (sideRows g p1) := by
      simp only [pair_rows_one_per_peer]
      rw [if_neg (by rw [hcond]; exact Bool.false_ne_true)]
    rw [hpair]
    exact pairsFor_no_right_match (not_mem_other_side hne hmem) hno
  · intro hmem hcond hno
    have hpair : pair_rows_one_per_peer g p0 p1 =
        pairsFor autoKeyOf (sharedKeys autoKeyOf autoKeyLe (sideRows g p0) (sideRows g p1))
          (sideRows g p0) (sideRows g p1) := by
      simp only [pair_rows_one_per_peer]
      rw [if_neg (by rw [hcond]; exact Bool.false_ne_true)]
    rw [hpair]
    exact pairsFor_no_left_match (not_mem_other_side hne.symm hmem) hno
  · intro hcond k hl hr
    have hpair : pair_rows_one_per_peer g p0 p1 =
        pairsFor lagKeyOf (sharedKeys lagKeyOf strLeB (sideRows g p0) (sideRows g p1))
          (sideRows g p0) (sideRows g p1) := by
      simp only [pair_rows_one_per_peer]
      rw [if_pos hcond]
    rw [hpair,
      (pairsFor_stable lagKeyOf strLeB (sideRows g p0) (sideRows g p1) k hl hr).1,
      List.length_zip]
    rw [sortRows_length, sortRows_length]
  · intro hcond k hl hr
    have hpair : pair_rows_one_per_peer g p0 p1 =
        pairsFor autoKeyOf (sharedKeys autoKeyOf autoKeyLe (sideRows g p0) (sideRows g p1))
          (sideRows g p0) (sideRows g p1) := by
      simp only [pair_rows_one_per_peer]
      rw [if_neg (by rw [hcond]; exact Bool.false_ne_true)]
    rw [hpair,
      (pairsFor_stable autoKeyOf autoKeyLe (sideRows g p0) (sideRows g p1) k hl hr).1,
      List.length_zip]
    rw [sortRows_length, sortRows_length]
  · intro states dry lo hi grp hpeers hhealthy hpairs
    unfold processGroup
    rw [hpeers]
    dsimp only
    rw [if_pos hhealthy, hpairs]
    simp

def c6rows : List Row :=
  [ mkRow ("srv1") ("e1") ("access") ("10") ("") ("A") ("Eth1/1") ("9216") ("yes") ("g1") ("a"),
    mkRow ("srv2") ("e1") ("access") ("10") ("") ("A") ("Eth1/9") ("9216") ("yes") ("g1") ("b"),
    mkRow ("srv1") ("e2") ("access") ("10") ("") ("B") ("Eth1/2") ("9216") ("yes") ("g1") ("a") ]

/-- A healthy device with VLAN 10 defined, nothing bonded, nothing up, no ids
in use. -/
def stHealthy : DeviceState :=
  ⟨∅, ∅, ∅, ({10} : Finset Nat), fun _ => (false, ""), fun _ => false, "5", true, true⟩

def statesAll : String → DeviceState := fun _ => stHealthy

/-- Witness for C6 (amended): in the concrete group where lag_key "b" exists
only on the A side, the one produced bundle does not involve that row. -/
theorem unmatched_row_no_bundle_witness :
    ((pair_rows_one_per_peer c6rows ("A") ("B")).get ⟨0, by decide⟩).1 ≠
        c6rows.get ⟨1, by decide⟩ ∧
      ((pair_rows_one_per_peer c6rows ("A") ("B")).get ⟨0, by decide⟩).2 ≠
        c6rows.get ⟨1, by decide⟩ :=
  (unmatched_row_no_bundle c6rows ("A") ("B") (c6rows.get ⟨1, by decide⟩)
      (by decide)).1 (by decide) (by decide) (by decide)
    ((pair_rows_one_per_peer c6rows ("A") ("B")).get ⟨0, by decide⟩) (by decide)

/-- Substring check on character lists. -/
def containsSub (needle : List Char) : List Char → Bool
  | [] => needle.isEmpty
  | c :: cs => needle.isPrefixOf (c :: cs) || containsSub needle cs

/-- Every string carried by a message (including configuration lines). -/
def msgStrings : Msg → List String
  | .vlanMissing d _ => [d]
  | .vlanFix => []
  | .vlanPass => []
  | .needVpcGroup => []
  | .groupPeersErr g ps => g :: ps
  | .vpcMismatch g a b => [g, a, b]
  | .vpcCheck g a b d => [g, a, b, d]
  | .noPairable g => [g]
  | .skipMtu g m => [g, m]
  | .skipInPc h i w => [h, i, w]
  | .skipLinkUp h i => [h, i]
  | .groupExhausted g => [g]
  | .skipNoAccessVlan g a => [g, a]
  | .skipUnknownType s => [s]
  | .plan g _ h1 i1 h2 i2 sw => [g, h1, i1, h2, i2, sw]
  | .dryCfg h c => h :: c
  | .okCfg g _ => [g]
  | .skipMtuNo d i m => [d, i, m]
  | .skipNoAccessVlanNo a d i => [a, d, i]
  | .planNo d i s => [d, i, s]
  | .okNo d i => [d, i]
  | .done => []

/-- Does any string carried by the message contain x as a substring? -/
def msgMentions (x : String) (m : Msg) : Bool :=
  (msgStrings m).any (fun s => containsSub x.data s.data)

/-- Counterexample to C6 as stated: in a run whose group has lag_key "a"
shared and lag_key "b" (row with destination port Eth1/9) only on one side,
the unmatched row is in no bundle, the group still produces a bundle (so the
group-level no-pairable message is not emitted either), and no message of the
whole run mentions the unmatched row's port: it is silently dropped, not
individually reported. -/
theorem unmatched_row_silently_dropped :
    (∀ p ∈ pair_rows_one_per_peer c6rows ("A") ("B"),
        p.1 ≠ c6rows.get ⟨1, by decide⟩ ∧ p.2 ≠ c6rows.get ⟨1, by decide⟩) ∧
      (runMain c6rows statesAll 1 100 true).out.any
        (fun m => match m with | .plan _ _ _ _ _ _ _ => true | _ => false) = true ∧
      (runMain c6rows statesAll 1 100 true).out.all
        (fun m => !(msgMentions ("1/9") m)) = true := by
  decide

/- ----------------------- run-level lemmas ----------------------- -/

/-- Messages that announce or carry configuration (planning, previewing or
submitting), as opposed to skips and errors. -/
def isCfgEvent : Msg → Bool
  | .plan _ _ _ _ _ _ _ => true
  | .dryCfg _ _ => true
  | .okCfg _ _ => true
  | .planNo _ _ _ => true
  | .okNo _ _ => true
  | _ => false

def planIdOf : Msg → Option Int
  | .plan _ i _ _ _ _ _ => some i
  | _ => none

def planIds (msgs : List Msg) : List Int := msgs.filterMap planIdOf

/-- The ids of the plan messages belonging to group g. -/
def planIdsOf (g : String) (msgs : List Msg) : List Int :=
  msgs.filterMap (fun m =>
    match m with
    | .plan g2 i _ _ _ _ _ => if g2 = g then some i else none
    | _ => none)

theorem pick_next_id_not_mem {used : Finset Int} {lo hi i : Int}
    (h : pick_next_id used lo hi = some i) : i ∉ used := by
  unfold pick_next_id at h
  exact (pickGo_eq_some used _ lo i h).2.2.1

theorem emitOut_spec (p0 p1 grp : String) (dry : Bool) (pcId : Int)
    (iface1 iface2 sw : String) (cfgPo cfg1 cfg2 : List String) (used1 : Finset Int) :
    planIds (emitOut p0 p1 grp dry pcId iface1 iface2 sw cfgPo cfg1 cfg2 used1).msgs = [pcId] ∧
      (emitOut p0 p1 grp dry pcId iface1 iface2 sw cfgPo cfg1 cfg2 used1).used = used1 ∧
      ∀ (g : String) (i : Int) (h1 i1 h2 i2 sw2 : String),
        Msg.plan g i h1 i1 h2 i2 sw2 ∈
          (emitOut p0 p1 grp dry pcId iface1 iface2 sw cfgPo cfg1 cfg2 used1).msgs →
        g = grp ∧ h1 = p0 ∧ h2 = p1 ∧ i = pcId := by
  simp only [emitOut]
  split
  · refine ⟨rfl, rfl, ?_⟩
    intro g i h1 i1 h2 i2 sw2 hm
    simp only [List.mem_cons, List.not_mem_nil, or_false] at hm
    rcases hm with hm | hm | hm
    · obtain ⟨rfl, rfl, rfl, _, rfl, _, _⟩ := Msg.plan.inj hm
      exact ⟨rfl, rfl, rfl, rfl⟩
    · exact absurd hm (by simp)
    · exact absurd hm (by simp)
  · refine ⟨rfl, rfl, ?_⟩
    intro g i h1 i1 h2 i2 sw2 hm
    simp only [List.mem_cons, List.not_mem_nil, or_false] at hm
    rcases hm with hm | hm
    · obtain ⟨rfl, rfl, rfl, _, rfl, _, _⟩ := Msg.plan.inj hm
      exact ⟨rfl, rfl, rfl, rfl⟩
    · exact absurd hm (by simp)

theorem stepCompose_spec (p0 p1 grp : String) (dry : Bool) (used1 : Finset Int) (pcId : Int)
    (b : Row × Row) (iface1 iface2 sw allowed native mtu : String) :
    (stepCompose p0 p1 grp dry used1 pcId b iface1 iface2 sw allowed native mtu).used = used1 ∧
      (planIds (stepCompose p0 p1 grp dry used1 pcId b iface1 iface2 sw allowed native mtu).msgs
          = [] ∨
        planIds (stepCompose p0 p1 grp dry used1 pcId b iface1 iface2 sw allowed native mtu).msgs
          = [pcId]) ∧
      ∀ (g : String) (i : Int) (h1 i1 h2 i2 sw2 : String),
        Msg.plan g i h1 i1 h2 i2 sw2 ∈
          (stepCompose p0 p1 grp dry used1 pcId b iface1 iface2 sw allowed native mtu).msgs →
        g = grp ∧ h1 = p0 ∧ h2 = p1 ∧ i = pcId := by
  simp only [stepCompose]
  split
  · split
    · refine ⟨rfl, Or.inl rfl, ?_⟩
      intro g i h1 i1 h2 i2 sw2 hm
      simp at hm
    · obtain ⟨e1, e2, e3⟩ := emitOut_spec p0 p1 grp dry pcId iface1 iface2 sw _ _ _ used1
      exact ⟨e2, Or.inr e1, e3⟩
  · split
    · obtain ⟨e1, e2, e3⟩ := emitOut_spec p0 p1 grp dry pcId iface1 iface2 sw _ _ _ used1
      exact ⟨e2, Or.inr e1, e3⟩
    · refine ⟨rfl, Or.inl rfl, ?_⟩
      intro g i h1 i1 h2 i2 sw2 hm
      simp at hm

theorem stepBundle_used_mono (st1 st2 : DeviceState) (p0 p1 grp : String) (dry : Bool)
    (lo hi : Int) (used : Finset Int) (b : Row × Row) :
    used ⊆ (stepBundle st1 st2 p0 p1 grp dry lo hi used b).used := by
  simp only [stepBundle]
  split
  · exact fun _ h => h
  · split
    · exact fun _ h => h
    · split
      · exact fun _ h => h
      · split
        · exact fun _ h => h
        · split
          · exact fun _ h => h
          · split
            · exact fun _ h => h
            · rename_i pcId _
              rw [(stepCompose_spec p0 p1 grp dry (insert pcId used) pcId b _ _ _ _ _ _).1]
              exact Finset.subset_insert _ _

theorem stepBundle_plan_spec (st1 st2 : DeviceState) (p0 p1 grp : String) (dry : Bool)
    (lo hi : Int) (used : Finset Int) (b : Row × Row) :
    ∀ (g : String) (i : Int) (h1 i1 h2 i2 sw : String),
      Msg.plan g i h1 i1 h2 i2 sw ∈ (stepBundle st1 st2 p0 p1 grp dry lo hi used b).msgs →
      g = grp ∧ h1 = p0 ∧ h2 = p1 ∧ pick_next_id used lo hi = some i ∧
        (stepBundle st1 st2 p0 p1 grp dry lo hi used b).used = insert i used := by
  simp only [stepBundle]
  split
  · intro g i h1 i1 h2 i2 sw hm
    simp at hm
  · split
    · intro g i h1 i1 h2 i2 sw hm
      simp at hm
    · split
      · intro g i h1 i1 h2 i2 sw hm
        simp at hm
      · split
        · intro g i h1 i1 h2 i2 sw hm
          simp at hm
        · split
          · intro g i h1 i1 h2 i2 sw hm
            simp at hm
          · split
            · intro g i h1 i1 h2 i2 sw hm
              simp at hm
            · rename_i pcId hpick
              intro g i h1 i1 h2 i2 sw hm
              obtain ⟨e1, e2, e3, e4⟩ :=
                (stepCompose_spec p0 p1 grp dry (insert pcId used) pcId b _ _ _ _ _ _).2.2
                  g i h1 i1 h2 i2 sw hm
              subst e4
              exact ⟨e1, e2, e3, hpick,
                (stepCompose_spec p0 p1 grp dry (insert i used) i b _ _ _ _ _ _).1⟩

theorem stepBundle_planIds (st1 st2 : DeviceState) (p0 p1 grp : String) (dry : Bool)
    (lo hi : Int) (used : Finset Int) (b : Row × Row) :
    planIds (stepBundle st1 st2 p0 p1 grp dry lo hi used b).msgs = [] ∨
      ∃ i, planIds (stepBundle st1 st2 p0 p1 grp dry lo hi used b).msgs = [i] ∧
        pick_next_id used lo hi = some i ∧
        (stepBundle st1 st2 p0 p1 grp dry lo hi used b).used = insert i used := by
  simp only [stepBundle]
  split
  · left; rfl
  · split
    · left; rfl
    · split
      · left; rfl
      · split
        · left; rfl
        · split
          · left; rfl
          · split
            · left; rfl
            · rename_i pcId hpick
              obtain ⟨hused, hids, _⟩ :=
                stepCompose_spec p0 p1 grp dry (insert pcId used) pcId b
                  (to_eth_canonical b.1.destination_port) (to_eth_canonical b.2.destination_port)
                  (pyLower (pyStrip b.1.switchport_type)) (pyStrip b.1.allowed_vlan)
                  (pyStrip b.1.native_vlan) (pyStrip b.1.mtu_value)
              rcases hids with hids | hids
              · left; exact hids
              · exact Or.inr ⟨pcId, hids, hpick, hused⟩

theorem processBundles_plan_spec (st1 st2 : DeviceState) (p0 p1 grp : String) (dry : Bool)
    (lo hi : Int) :
    ∀ (bs : List (Row × Row)) (used : Finset Int) (g : String) (i : Int)
      (h1 i1 h2 i2 sw : String),
      Msg.plan g i h1 i1 h2 i2 sw ∈ (processBundles st1 st2 p0 p1 grp dry lo hi bs used).1 →
      g = grp ∧ h1 = p0 ∧ h2 = p1 ∧ i ∉ used := by
  intro bs
  induction bs with
  | nil =>
    intro used g i h1 i1 h2 i2 sw hm
    simp [processBundles] at hm
  | cons b bs ih =>
    intro used g i h1 i1 h2 i2 sw hm
    simp only [processBundles] at hm
    split at hm
    · obtain ⟨e1, e2, e3, hpick, _⟩ :=
        stepBundle_plan_spec st1 st2 p0 p1 grp dry lo hi used b g i h1 i1 h2 i2 sw hm
      exact ⟨e1, e2, e3, pick_next_id_not_mem hpick⟩
    · rcases List.mem_append.mp hm with hm | hm
      · obtain ⟨e1, e2, e3, hpick, _⟩ :=
          stepBundle_plan_spec st1 st2 p0 p1 grp dry lo hi used b g i h1 i1 h2 i2 sw hm
        exact ⟨e1, e2, e3, pick_next_id_not_mem hpick⟩
      · obtain ⟨e1, e2, e3, hnm⟩ := ih _ g i h1 i1 h2 i2 sw hm
        exact ⟨e1, e2, e3, fun hc =>
          hnm (stepBundle_used_mono st1 st2 p0 p1 grp dry lo hi used b hc)⟩

theorem processBundles_planIds_nodup (st1 st2 : DeviceState) (p0 p1 grp : String)
    (dry : Bool) (lo hi : Int) :
    ∀ (bs : List (Row × Row)) (used : Finset Int),
      (planIds (processBundles st1 st2 p0 p1 grp dry lo hi bs used).1).Nodup ∧
        ∀ i ∈ planIds (processBundles st1 st2 p0 p1 grp dry lo hi bs used).1, i ∉ used := by
  intro bs
  induction bs with
  | nil =>
    intro used
    constructor
    · simp [processBundles, planIds]
    · intro i hi2
      simp [processBundles, planIds] at hi2
  | cons b bs ih =>
    intro used
    simp only [processBundles]
    split
    · rcases stepBundle_planIds st1 st2 p0 p1 grp dry lo hi used b with h0 | ⟨i0, h0, hpick, _⟩
      · rw [h0]
        exact ⟨List.nodup_nil, by simp⟩
      · rw [h0]
        refine ⟨List.nodup_singleton i0, ?_⟩
        intro i hi2
        obtain rfl : i = i0 := by simpa using hi2
        exact pick_next_id_not_mem hpick
    · rw [show planIds ((stepBundle st1 st2 p0 p1 grp dry lo hi used b).msgs ++
          (processBundles st1 st2 p0 p1 grp dry lo hi bs
            (stepBundle st1 st2 p0 p1 grp dry lo hi used b).used).1) =
          planIds (stepBundle st1 st2 p0 p1 grp dry lo hi used b).msgs ++
          planIds (processBundles st1 st2 p0 p1 grp dry lo hi bs
            (stepBundle st1 st2 p0 p1 grp dry lo hi used b).used).1 from
          List.filterMap_append _ _ _]
      obtain ⟨ihn, ihm⟩ := ih (stepBundle st1 st2 p0 p1 grp dry lo hi used b).used
      rcases stepBundle_planIds st1 st2 p0 p1 grp dry lo hi used b with h0 | ⟨i0, h0, hpick, hins⟩
      · rw [h0, List.nil_append]
        refine ⟨ihn, ?_⟩
        intro i hi2
        exact fun hc => ihm i hi2 (stepBundle_used_mono st1 st2 p0 p1 grp dry lo hi used b hc)
      · rw [h0]
        constructor
        · refine List.Nodup.append (List.nodup_singleton i0) ihn ?_
          intro x hx hx2
          obtain rfl : x = i0 := by simpa using hx
          exact ihm _ hx2 (by rw [hins]; exact Finset.mem_insert_self _ used)
        · intro i hi2
          rcases List.mem_append.mp hi2 with hi3 | hi3
          · obtain rfl : i = i0 := by simpa using hi3
            exact pick_next_id_not_mem hpick
          · exact fun hc => ihm i hi3 (stepBundle_used_mono st1 st2 p0 p1 grp dry lo hi used b hc)

theorem processGroup_plan_spec (states : String → DeviceState) (dry : Bool) (lo hi : Int)
    (k : String) (g : List Row) :
    ∀ (g2 : String) (i : Int) (h1 i1 h2 i2 sw : String),
      Msg.plan g2 i h1 i1 h2 i2 sw ∈ (processGroup states dry lo hi k g).1 →
      g2 = k ∧ ∃ p0 p1, peersOf g = [p0, p1] ∧ h1 = p0 ∧ h2 = p1 ∧
        i ∉ usedUnion (states p0) (states p1) := by
  intro g2 i h1 i1 h2 i2 sw hm
  simp only [processGroup] at hm
  split at hm
  · rename_i p0 p1 heq
    split at hm
    · split at hm
      · simp at hm
      · simp only [List.mem_cons] at hm
        rcases hm with hm | hm
        · exact absurd hm (by simp)
        · obtain ⟨e1, e2, e3, e4⟩ :=
            processBundles_plan_spec (states p0) (states p1) p0 p1 k dry lo hi _ _
              g2 i h1 i1 h2 i2 sw hm
          exact ⟨e1, p0, p1, heq, e2, e3, e4⟩
    · simp at hm
  · simp at hm

theorem processGroup_planIds_nodup (states : String → DeviceState) (dry : Bool) (lo hi : Int)
    (k : String) (g : List Row) :
    (planIds (processGroup states dry lo hi k g).1).Nodup := by
  simp only [processGroup]
  split
  · rename_i p0 p1 heq
    split
    · split
      · exact List.nodup_nil
      · rw [show planIds (Msg.vpcCheck k p0 p1 (states p0).vpcDomain ::
            (processBundles (states p0) (states p1) p0 p1 k dry lo hi
              (pair_rows_one_per_peer g p0 p1) (usedUnion (states p0) (states p1))).1) =
            planIds (processBundles (states p0) (states p1) p0 p1 k dry lo hi
              (pair_rows_one_per_peer g p0 p1) (usedUnion (states p0) (states p1))).1 from rfl]
        exact (processBundles_planIds_nodup (states p0) (states p1) p0 p1 k dry lo hi _ _).1
    · exact List.nodup_nil
  · exact List.nodup_nil

def isPlanMsg : Msg → Bool
  | .plan _ _ _ _ _ _ _ => true
  | _ => false

theorem planIds_cons_plan (g2 : String) (i : Int) (h1 i1 h2 i2 sw : String) (ms : List Msg) :
    planIds (Msg.plan g2 i h1 i1 h2 i2 sw :: ms) = i :: planIds ms := rfl

theorem planIds_cons_other (m : Msg) (ms : List Msg) (hm : isPlanMsg m = false) :
    planIds (m :: ms) = planIds ms := by
  cases m <;> first | rfl | exact absurd hm (by simp [isPlanMsg])

theorem planIdsOf_cons_plan (gname g2 : String) (i : Int) (h1 i1 h2 i2 sw : String)
    (ms : List Msg) :
    planIdsOf gname (Msg.plan g2 i h1 i1 h2 i2 sw :: ms) =
      if g2 = gname then i :: planIdsOf gname ms else planIdsOf gname ms := by
  by_cases hk : g2 = gname
  · simp only [planIdsOf, List.filterMap_cons, if_pos hk]
  · simp only [planIdsOf, List.filterMap_cons, if_neg hk]

theorem planIdsOf_cons_other (gname : String) (m : Msg) (ms : List Msg)
    (hm : isPlanMsg m = false) : planIdsOf gname (m :: ms) = planIdsOf gname ms := by
  cases m <;> first | rfl | exact absurd hm (by simp [isPlanMsg])

theorem planIds_eq_nil_of {msgs : List Msg} (h : ∀ m ∈ msgs, isPlanMsg m = false) :
    planIds msgs = [] ∧ ∀ gname, planIdsOf gname msgs = [] := by
  induction msgs with
  | nil => simp [planIds, planIdsOf]
  | cons m ms ih =>
    have hm := h m (List.mem_cons_self m ms)
    have hrest := ih (fun x hx => h x (List.mem_cons_of_mem m hx))
    constructor
    · rw [planIds_cons_other _ _ hm]
      exact hrest.1
    · intro gname
      rw [planIdsOf_cons_other _ _ _ hm]
      exact hrest.2 gname

theorem processNoRow_no_plan (states : String → DeviceState) (dry : Bool) (r : Row) :
    ∀ m ∈ (processNoRow states dry r).1, isPlanMsg m = false := by
  intro m hm
  simp only [processNoRow] at hm
  split at hm
  · simp only [List.mem_singleton] at hm
    subst hm; rfl
  · split at hm
    · simp only [List.mem_singleton] at hm
      subst hm; rfl
    · split at hm
      · simp only [List.mem_singleton] at hm
        subst hm; rfl
      · split at hm
        · split at hm
          · simp only [List.mem_singleton] at hm
            subst hm; rfl
          · split at hm
            · simp only [List.mem_cons, List.not_mem_nil, or_false] at hm
              rcases hm with rfl | rfl <;> rfl
            · simp only [List.mem_cons, List.not_mem_nil, or_false] at hm
              rcases hm with rfl | rfl <;> rfl
        · split at hm
          · split at hm
            · simp only [List.mem_cons, List.not_mem_nil, or_false] at hm
              rcases hm with rfl | rfl <;> rfl
            · simp only [List.mem_cons, List.not_mem_nil, or_false] at hm
              rcases hm with rfl | rfl <;> rfl
          · simp only [List.mem_singleton] at hm
            subst hm; rfl

theorem noLoop_no_plan (states : String → DeviceState) (dry : Bool) :
    ∀ rows : List Row, ∀ m ∈ (noLoop states dry rows).1, isPlanMsg m = false := by
  intro rows
  induction rows with
  | nil => intro m hm; simp [noLoop] at hm
  | cons r rs ih =>
    intro m hm
    simp only [noLoop] at hm
    rcases List.mem_append.mp hm with hm | hm
    · exact processNoRow_no_plan states dry r m hm
    · exact ih m hm

theorem groupLoop_plan_mem (states : String → DeviceState) (dry : Bool) (lo hi : Int) :
    ∀ (gs : List (String × List Row)) (m : Msg), m ∈ (groupLoop states dry lo hi gs).1 →
      ∃ kg ∈ gs, m ∈ (processGroup states dry lo hi kg.1 kg.2).1 := by
  intro gs
  induction gs with
  | nil => intro m hm; simp [groupLoop] at hm
  | cons kg gs ih =>
    intro m hm
    simp only [groupLoop] at hm
    rcases List.mem_append.mp hm with hm | hm
    · exact ⟨kg, List.mem_cons_self _ _, hm⟩
    · obtain ⟨kg2, hkg2, hm2⟩ := ih m hm
      exact ⟨kg2, List.mem_cons_of_mem _ hkg2, hm2⟩

theorem planIdsOf_of_group {msgs : List Msg} {k : String}
    (h : ∀ (g2 : String) (i : Int) (h1 i1 h2 i2 sw : String),
      Msg.plan g2 i h1 i1 h2 i2 sw ∈ msgs → g2 = k) (gname : String) :
    planIdsOf gname msgs = if k = gname then planIds msgs else [] := by
  induction msgs with
  | nil => simp [planIds, planIdsOf]
  | cons m ms ih =>
    have hrest := ih (fun g2 i h1 i1 h2 i2 sw hx => h g2 i h1 i1 h2 i2 sw
      (List.mem_cons_of_mem m hx))
    cases m
    case plan g2 i h1 i1 h2 i2 sw =>
      have hg2 : g2 = k := h g2 i h1 i1 h2 i2 sw (List.mem_cons_self _ _)
      subst hg2
      rw [planIdsOf_cons_plan, planIds_cons_plan, hrest]
      by_cases hk : g2 = gname
      · simp [hk]
      · simp [hk]
    all_goals rw [planIdsOf_cons_other _ _ _ (by rfl), planIds_cons_other _ _ (by rfl)]
    all_goals exact hrest

theorem planIdsOf_append (gname : String) (a b : List Msg) :
    planIdsOf gname (a ++ b) = planIdsOf gname a ++ planIdsOf gname b :=
  List.filterMap_append _ _ _

theorem groupLoop_planIdsOf_nodup (states : String → DeviceState) (dry : Bool) (lo hi : Int)
    (gname : String) :
    ∀ gs : List (String × List Row), (gs.map Prod.fst).Nodup →
      (planIdsOf gname (groupLoop states dry lo hi gs).1).Nodup ∧
      (gname ∉ gs.map Prod.fst → planIdsOf gname (groupLoop states dry lo hi gs).1 = []) := by
  intro gs
  induction gs with
  | nil =>
    intro _
    constructor
    · simp [groupLoop, planIdsOf]
    · intro _; simp [groupLoop, planIdsOf]
  | cons kg gs ih =>
    intro hnd
    rw [List.map_cons] at hnd
    obtain ⟨hh, ht⟩ := List.nodup_cons.mp hnd
    obtain ⟨ihn, ihe⟩ := ih ht
    have hof := planIdsOf_of_group (fun g2 i h1 i1 h2 i2 sw hm =>
      (processGroup_plan_spec states dry lo hi kg.1 kg.2 g2 i h1 i1 h2 i2 sw hm).1) gname
    simp only [groupLoop]
    rw [planIdsOf_append]
    constructor
    · by_cases hk : kg.1 = gname
      · rw [hof, if_pos hk]
        rw [ihe (by rw [← hk]; exact hh), List.append_nil]
        exact processGroup_planIds_nodup states dry lo hi kg.1 kg.2
      · rw [hof, if_neg hk, List.nil_append]
        exact ihn
    · intro hnm
      simp only [List.map_cons, List.mem_cons, not_or] at hnm
      rw [hof, if_neg (fun hc => hnm.1 hc.symm), List.nil_append]
      exact ihe hnm.2

theorem groupsOf_keys_nodup (df : List Row) : ((groupsOf df).map Prod.fst).Nodup := by
  unfold groupsOf
  rw [List.map_map]
  rw [show (Prod.fst ∘ fun k => (k, (df.filter (fun r => r.pc_required == "yes")).filter
    (fun r => r.vpc_group == k))) = id from rfl, List.map_id]
  exact ((perm_sortByB strLeB _).nodup_iff).mpr (List.nodup_dedup _)

theorem precheck_msgs_not_plan (df : List Row) (states : String → DeviceState) :
    ∀ m ∈ (needDevices df).filterMap (fun dev =>
      let miss := missOf df states dev
      if miss.isEmpty then none else some (Msg.vlanMissing dev miss)),
      isPlanMsg m = false := by
  intro m hm
  obtain ⟨dev, _, hf⟩ := List.mem_filterMap.mp hm
  dsimp only at hf
  split at hf
  · exact absurd hf (by simp)
  · obtain rfl := Option.some.inj hf
    rfl

/-- C2 (amended): within one vpc group, two allocations never return the same
channel identifier — the plan-message ids of any single group of a run are
pairwise distinct, because the used-set grows after each allocation. (Across
distinct groups the used-set is recomputed from fresh device queries, so the
claim's cross-group reservation fails; see the counterexample.) -/
theorem run_group_alloc_ids_nodup (raw : List Row) (states : String → DeviceState)
    (lo hi : Int) (dry : Bool) (gname : String) :
    (planIdsOf gname (runMain raw states lo hi dry).out).Nodup := by
  simp only [runMain]
  split
  · rw [planIdsOf_append,
      (planIds_eq_nil_of (precheck_msgs_not_plan (load_plan raw) states)).2 gname,
      show planIdsOf gname [Msg.vlanFix] = [] from rfl]
    exact List.nodup_nil
  · split
    · rw [show planIdsOf gname [Msg.vlanPass, Msg.needVpcGroup] = [] from rfl]
      exact List.nodup_nil
    · rw [planIdsOf_cons_other _ _ _ (by rfl), planIdsOf_append, planIdsOf_append,
        (planIds_eq_nil_of (noLoop_no_plan states dry _)).2 gname,
        show planIdsOf gname [Msg.done] = [] from rfl,
        List.append_nil, List.append_nil]
      exact (groupLoop_planIdsOf_nodup states dry lo hi gname (groupsOf (load_plan raw))
        (groupsOf_keys_nodup (load_plan raw))).1

def c2rows : List Row :=
  [ mkRow ("srv1") ("e1") ("access") ("10") ("") ("A") ("Eth1/1") ("9216") ("yes") ("g1") (""),
    mkRow ("srv1") ("e2") ("access") ("10") ("") ("B") ("Eth1/2") ("9216") ("yes") ("g1") (""),
    mkRow ("srv2") ("e1") ("access") ("10") ("") ("A") ("Eth1/3") ("9216") ("yes") ("g2") (""),
    mkRow ("srv2") ("e2") ("access") ("10") ("") ("B") ("Eth1/4") ("9216") ("yes") ("g2") ("") ]

/-- Counterexample to C2 as stated: in a dry run over two groups on the same
device pair (A, B) whose reported used-id sets are unchanged, both groups are
allocated the same identifier 1, because main recomputes the used-id union
from device queries at each group and keeps no run-scoped reservation across
groups. -/
theorem same_id_allocated_across_groups :
    Msg.plan ("g1") 1 ("A") ("Ethernet1/1") ("B") ("Ethernet1/2") ("access") ∈
        (runMain c2rows statesAll 1 100 true).out ∧
      Msg.plan ("g2") 1 ("A") ("Ethernet1/3") ("B") ("Ethernet1/4") ("access") ∈
        (runMain c2rows statesAll 1 100 true).out := by
  decide

/-- C8: every planned (allocated) channel identifier of a run is absent from
each of the six used-id sets consulted for the two peer devices of its group:
the summary-table (Po) set and both vPC-table (brief and full) sets, on both
peers — main unions all six before allocation, and an id is allocated only
when free in the union. -/
theorem plan_id_free_on_six_sets (raw : List Row) (states : String → DeviceState)
    (lo hi : Int) (dry : Bool) :
    ∀ (g : String) (i : Int) (h1 i1 h2 i2 sw : String),
      Msg.plan g i h1 i1 h2 i2 sw ∈ (runMain raw states lo hi dry).out →
      i ∉ (states h1).usedPortchannels ∧ i ∉ (states h1).usedVpcBrief ∧
        i ∉ (states h1).usedVpcShow ∧ i ∉ (states h2).usedPortchannels ∧
        i ∉ (states h2).usedVpcBrief ∧ i ∉ (states h2).usedVpcShow := by
  intro g i h1 i1 h2 i2 sw hm
  simp only [runMain] at hm
  split at hm
  · simp only [RunOut.mk.injEq] at hm
    rcases List.mem_append.mp hm with hm2 | hm2
    · have := precheck_msgs_not_plan (load_plan raw) states _ hm2
      simp [isPlanMsg] at this
    · simp at hm2
  · split at hm
    · simp at hm
    · simp only [List.mem_cons, List.mem_append] at hm
      rcases hm with hm2 | (hm2 | hm2) | hm2
      · exact absurd hm2 (by simp)
      · obtain ⟨kg, _, hpg⟩ := groupLoop_plan_mem states dry lo hi _ _ hm2
        obtain ⟨_, p0, p1, _, rfl, rfl, hnm⟩ :=
          processGroup_plan_spec states dry lo hi kg.1 kg.2 g i h1 i1 h2 i2 sw hpg
        simp only [usedUnion, Finset.mem_union, not_or] at hnm
        exact ⟨hnm.1.1.1.1.1, hnm.1.1.1.2, hnm.1.2, hnm.1.1.1.1.2, hnm.1.1.2, hnm.2⟩
      · have := noLoop_no_plan states dry _ _ hm2
        simp [isPlanMsg] at this
      · exact absurd hm2 (by simp)

def stUsed : DeviceState :=
  ⟨({3} : Finset Int), ({1} : Finset Int), ({2} : Finset Int), ({10} : Finset Nat),
   fun _ => (false, ""), fun _ => false, "5", true, true⟩

def statesUsed : String → DeviceState := fun _ => stUsed

def c8rows : List Row :=
  [ mkRow ("srv1") ("e1") ("access") ("10") ("") ("A") ("Eth1/1") ("9216") ("yes") ("g1") (""),
    mkRow ("srv1") ("e2") ("access") ("10") ("") ("B") ("Eth1/2") ("9216") ("yes") ("g1") ("") ]

/-- Witness for C8: with ids 1, 2 and 3 spread over the three per-device used
sets, the run allocates 4, which is absent from all six sets. -/
theorem plan_id_free_on_six_sets_witness :
    Msg.plan ("g1") 4 ("A") ("Ethernet1/1") ("B") ("Ethernet1/2") ("access") ∈
        (runMain c8rows statesUsed 1 100 true).out ∧
      (4 : Int) ∉ (statesUsed ("A")).usedPortchannels ∧
      (4 : Int) ∉ (statesUsed ("A")).usedVpcBrief ∧
      (4 : Int) ∉ (statesUsed ("A")).usedVpcShow ∧
      (4 : Int) ∉ (statesUsed ("B")).usedPortchannels ∧
      (4 : Int) ∉ (statesUsed ("B")).usedVpcBrief ∧
      (4 : Int) ∉ (statesUsed ("B")).usedVpcShow := by
  have h := plan_id_free_on_six_sets c8rows statesUsed 1 100 true ("g1") 4 ("A")
    ("Ethernet1/1") ("B") ("Ethernet1/2") ("access") (by decide)
  exact ⟨by decide, h.1, h.2.1, h.2.2.1, h.2.2.2.1, h.2.2.2.2.1, h.2.2.2.2.2⟩

/- ----------------------- VLAN precheck (C4) ----------------------- -/

theorem mem_dedupFirstAux {x : String} :
    ∀ {l seen : List String}, x ∈ l → x ∉ seen → x ∈ dedupFirstAux seen l := by
  intro l
  induction l with
  | nil => intro seen h _; simp at h
  | cons y ys ih =>
    intro seen hx hs
    simp only [dedupFirstAux]
    by_cases hy : y ∈ seen
    · rw [if_pos hy]
      rcases List.mem_cons.mp hx with rfl | hx2
      · exact absurd hy hs
      · exact ih hx2 hs
    · rw [if_neg hy]
      by_cases hxy : x = y
      · exact hxy ▸ List.mem_cons_self _ _
      · rcases List.mem_cons.mp hx with rfl | hx2
        · exact absurd rfl hxy
        · exact List.mem_cons_of_mem _ (ih hx2 (by
            intro hc
            rcases List.mem_cons.mp hc with rfl | hc2
            · exact hxy rfl
            · exact hs hc2))

theorem needFold_acc_mono {dev : String} {v : Nat} :
    ∀ (l : List Row) (acc : List Nat), v ∈ acc →
      v ∈ l.foldl (fun acc r =>
        if pyStrip r.destination_device = dev then insertAscAll (rowNeed r) acc else acc) acc := by
  intro l
  induction l with
  | nil => intro acc h; exact h
  | cons y ys ih =>
    intro acc h
    simp only [List.foldl_cons]
    apply ih
    split
    · exact mem_insertAscAll.mpr (Or.inr h)
    · exact h

theorem needFold_mem {dev : String} {v : Nat} :
    ∀ (l : List Row) (acc : List Nat) (r : Row), r ∈ l →
      pyStrip r.destination_device = dev → v ∈ rowNeed r →
      v ∈ l.foldl (fun acc r =>
        if pyStrip r.destination_device = dev then insertAscAll (rowNeed r) acc else acc) acc := by
  intro l
  induction l with
  | nil => intro acc r h; simp at h
  | cons y ys ih =>
    intro acc r hr hdev hv
    simp only [List.foldl_cons]
    rcases List.mem_cons.mp hr with rfl | hr2
    · apply needFold_acc_mono
      rw [if_pos hdev]
      exact mem_insertAscAll.mpr (Or.inl hv)
    · exact ih _ r hr2 hdev hv

theorem needOf_mem {df : List Row} {dev : String} {r : Row} {v : Nat}
    (hr : r ∈ df) (hdev : pyStrip r.destination_device = dev) (hv : v ∈ rowNeed r) :
    v ∈ needOf df dev :=
  needFold_mem df [] r hr hdev hv

theorem precheck_msgs_shape (df : List Row) (states : String → DeviceState) :
    ∀ m ∈ (needDevices df).filterMap (fun dev =>
      let miss := missOf df states dev
      if miss.isEmpty then none else some (Msg.vlanMissing dev miss)),
      ∃ dev miss, m = Msg.vlanMissing dev miss := by
  intro m hm
  obtain ⟨dev, _, hf⟩ := List.mem_filterMap.mp hm
  dsimp only at hf
  split at hf
  · exact absurd hf (by simp)
  · exact ⟨dev, _, (Option.some.inj hf).symm⟩

/-- C4: if any VLAN required by any loaded row (the access VLAN, or the trunk
allowed set plus the native VLAN) is absent from the destination device's
existing-VLAN set, the run aborts at the initial whole-table precheck: no
configuration is submitted, and the only output is the per-device
missing-VLAN errors plus the fix-and-re-run notice — no bundle reaches the
gate-pass or compose stage. -/
theorem missing_vlan_aborts_run (raw : List Row) (states : String → DeviceState)
    (lo hi : Int) (dry : Bool)
    (h : ∃ r ∈ load_plan raw, ∃ v ∈ rowNeed r,
      v ∉ (states (pyStrip r.destination_device)).existingVlans) :
    (runMain raw states lo hi dry).subs = [] ∧
      ∀ m ∈ (runMain raw states lo hi dry).out,
        (∃ dev miss, m = Msg.vlanMissing dev miss) ∨ m = Msg.vlanFix := by
  obtain ⟨r, hr, v, hv, hnv⟩ := h
  have hdev : pyStrip r.destination_device ∈ needDevices (load_plan raw) :=
    mem_dedupFirstAux (List.mem_map_of_mem _ hr) (by simp)
  have hmiss : v ∈ missOf (load_plan raw) states (pyStrip r.destination_device) :=
    List.mem_filter.mpr ⟨needOf_mem hr rfl hv, decide_eq_true hnv⟩
  have hne : (missOf (load_plan raw) states (pyStrip r.destination_device)).isEmpty = false := by
    cases hmo : missOf (load_plan raw) states (pyStrip r.destination_device) with
    | nil => rw [hmo] at hmiss; simp at hmiss
    | cons a l => rfl
  have hpre : Msg.vlanMissing (pyStrip r.destination_device)
      (missOf (load_plan raw) states (pyStrip r.destination_device)) ∈
      (needDevices (load_plan raw)).filterMap (fun dev =>
        let miss := missOf (load_plan raw) states dev
        if miss.isEmpty then none else some (Msg.vlanMissing dev miss)) := by
    refine List.mem_filterMap.mpr ⟨pyStrip r.destination_device, hdev, ?_⟩
    simp [hne]
  have hcond : (!((needDevices (load_plan raw)).filterMap (fun dev =>
      let miss := missOf (load_plan raw) states dev
      if miss.isEmpty then none else some (Msg.vlanMissing dev miss))).isEmpty) = true := by
    cases hp : (needDevices (load_plan raw)).filterMap (fun dev =>
      let miss := missOf (load_plan raw) states dev
      if miss.isEmpty then none else some (Msg.vlanMissing dev miss)) with
    | nil => rw [hp] at hpre; simp at hpre
    | cons a l => rfl
  constructor
  · simp only [runMain]
    rw [if_pos hcond]
  · intro m hm
    simp only [runMain] at hm
    rw [if_pos hcond] at hm
    rcases List.mem_append.mp hm with hm2 | hm2
    · exact Or.inl (precheck_msgs_shape (load_plan raw) states m hm2)
    · exact Or.inr (by simpa using hm2)

def c4rows : List Row :=
  [ mkRow ("srv1") ("e1") ("access") ("99") ("") ("A") ("Eth1/1") ("9216") ("yes") ("g1") ("") ]

/-- Witness for C4: VLAN 99 is required on device A but A only has VLAN 10;
the run submits nothing and reports the missing VLAN. -/
theorem missing_vlan_aborts_run_witness :
    (runMain c4rows statesAll 1 100 false).subs = [] ∧
      Msg.vlanMissing ("A") [99] ∈ (runMain c4rows statesAll 1 100 false).out :=
  ⟨(missing_vlan_aborts_run c4rows statesAll 1 100 false (by decide)).1, by decide⟩

/- ----------------------- idempotence (C9) ----------------------- -/

theorem stepBundle_gate_skip (st1 st2 : DeviceState) (p0 p1 grp : String) (dry : Bool)
    (lo hi : Int) (used : Finset Int) (b : Row × Row)
    (h : (st1.ifacePc (to_eth_canonical b.1.destination_port)).1 = true ∨
      st1.ifaceUp (to_eth_canonical b.1.destination_port) = true ∨
      (st2.ifacePc (to_eth_canonical b.2.destination_port)).1 = true ∨
      st2.ifaceUp (to_eth_canonical b.2.destination_port) = true) :
    (stepBundle st1 st2 p0 p1 grp dry lo hi used b).subs = [] ∧
      ∀ m ∈ (stepBundle st1 st2 p0 p1 grp dry lo hi used b).msgs, isCfgEvent m = false := by
  simp only [stepBundle]
  split
  · refine ⟨rfl, ?_⟩
    intro m hm
    obtain rfl := List.mem_singleton.mp hm
    rfl
  · split
    · refine ⟨rfl, ?_⟩
      intro m hm
      obtain rfl := List.mem_singleton.mp hm
      rfl
    · split
      · refine ⟨rfl, ?_⟩
        intro m hm
        obtain rfl := List.mem_singleton.mp hm
        rfl
      · split
        · refine ⟨rfl, ?_⟩
          intro m hm
          obtain rfl := List.mem_singleton.mp hm
          rfl
        · split
          · refine ⟨rfl, ?_⟩
            intro m hm
            obtain rfl := List.mem_singleton.mp hm
            rfl
          · rename_i h1 h2 h3 h4
            rcases h with h | h | h | h
            · exact absurd h h1
            · exact absurd h h3
            · exact absurd h h2
            · exact absurd h h4

theorem processBundles_gate_skip (st1 st2 : DeviceState) (p0 p1 grp : String) (dry : Bool)
    (lo hi : Int) :
    ∀ (bs : List (Row × Row)) (used : Finset Int),
      (∀ b ∈ bs, (st1.ifacePc (to_eth_canonical b.1.destination_port)).1 = true ∨
        st1.ifaceUp (to_eth_canonical b.1.destination_port) = true ∨
        (st2.ifacePc (to_eth_canonical b.2.destination_port)).1 = true ∨
        st2.ifaceUp (to_eth_canonical b.2.destination_port) = true) →
      (processBundles st1 st2 p0 p1 grp dry lo hi bs used).2 = [] ∧
        ∀ m ∈ (processBundles st1 st2 p0 p1 grp dry lo hi bs used).1,
          isCfgEvent m = false := by
  intro bs
  induction bs with
  | nil =>
    intro used _
    exact ⟨rfl, by intro m hm; simp [processBundles] at hm⟩
  | cons b bs ih =>
    intro used hall
    obtain ⟨hsubs, hmsgs⟩ := stepBundle_gate_skip st1 st2 p0 p1 grp dry lo hi used b
      (hall b (List.mem_cons_self _ _))
    obtain ⟨ihs, ihm⟩ := ih (stepBundle st1 st2 p0 p1 grp dry lo hi used b).used
      (fun x hx => hall x (List.mem_cons_of_mem _ hx))
    simp only [processBundles]
    split
    · exact ⟨hsubs, hmsgs⟩
    · constructor
      · show ((stepBundle st1 st2 p0 p1 grp dry lo hi used b).subs ++
          (processBundles st1 st2 p0 p1 grp dry lo hi bs
            (stepBundle st1 st2 p0 p1 grp dry lo hi used b).used).2) = []
        rw [hsubs, ihs]
        rfl
      · intro m hm
        rcases List.mem_append.mp hm with hm2 | hm2
        · exact hmsgs m hm2
        · exact ihm m hm2

theorem pair_rows_mem {g : List Row} {p0 p1 : String} {p : Row × Row}
    (hp : p ∈ pair_rows_one_per_peer g p0 p1) :
    p.1 ∈ sideRows g p0 ∧ p.2 ∈ sideRows g p1 := by
  simp only [pair_rows_one_per_peer] at hp
  split at hp
  · obtain ⟨h1, h2, _⟩ := pairsFor_mem hp
    exact ⟨h1, h2⟩
  · obtain ⟨h1, h2, _⟩ := pairsFor_mem hp
    exact ⟨h1, h2⟩

theorem processGroup_gate_skip (states : String → DeviceState) (dry : Bool) (lo hi : Int)
    (k : String) (g : List Row)
    (h : ∀ r ∈ g, ((states (pyStrip r.destination_device)).ifacePc
        (to_eth_canonical r.destination_port)).1 = true ∨
      (states (pyStrip r.destination_device)).ifaceUp
        (to_eth_canonical r.destination_port) = true) :
    (processGroup states dry lo hi k g).2 = [] ∧
      ∀ m ∈ (processGroup states dry lo hi k g).1, isCfgEvent m = false := by
  simp only [processGroup]
  split
  · rename_i p0 p1 heq
    split
    · split
      · refine ⟨rfl, ?_⟩
        intro m hm
        rcases List.mem_cons.mp hm with rfl | hm2
        · rfl
        · obtain rfl := List.mem_singleton.mp hm2
          rfl
      · have hbundles : ∀ b ∈ pair_rows_one_per_peer g p0 p1,
            ((states p0).ifacePc (to_eth_canonical b.1.destination_port)).1 = true ∨
            (states p0).ifaceUp (to_eth_canonical b.1.destination_port) = true ∨
            ((states p1).ifacePc (to_eth_canonical b.2.destination_port)).1 = true ∨
            (states p1).ifaceUp (to_eth_canonical b.2.destination_port) = true := by
          intro b hb
          obtain ⟨hb1, hb2⟩ := pair_rows_mem hb
          obtain ⟨hg1, hd1⟩ := mem_sideRows.mp hb1
          rcases h b.1 hg1 with hc | hc
          · rw [hd1] at hc
            exact Or.inl hc
          · rw [hd1] at hc
            exact Or.inr (Or.inl hc)
        obtain ⟨hs, hmgs⟩ := processBundles_gate_skip (states p0) (states p1) p0 p1 k dry lo hi
          (pair_rows_one_per_peer g p0 p1) (usedUnion (states p0) (states p1)) hbundles
        refine ⟨hs, ?_⟩
        intro m hm
        rcases List.mem_cons.mp hm with rfl | hm2
        · rfl
        · exact hmgs m hm2
    · refine ⟨rfl, ?_⟩
      intro m hm
      obtain rfl := List.mem_singleton.mp hm
      rfl
  · refine ⟨rfl, ?_⟩
    intro m hm
    obtain rfl := List.mem_singleton.mp hm
    rfl

theorem groupsOf_rows_sub {df : List Row} {kg : String × List Row}
    (hkg : kg ∈ groupsOf df) : ∀ r ∈ kg.2, r ∈ df := by
  intro r hr
  unfold groupsOf at hkg
  obtain ⟨k, _, rfl⟩ := List.mem_map.mp hkg
  exact List.mem_of_mem_filter (List.mem_of_mem_filter hr)

theorem groupLoop_gate_skip (states : String → DeviceState) (dry : Bool) (lo hi : Int) :
    ∀ gs : List (String × List Row),
      (∀ kg ∈ gs, ∀ r ∈ kg.2, ((states (pyStrip r.destination_device)).ifacePc
          (to_eth_canonical r.destination_port)).1 = true ∨
        (states (pyStrip r.destination_device)).ifaceUp
          (to_eth_canonical r.destination_port) = true) →
      (groupLoop states dry lo hi gs).2 = [] ∧
        ∀ m ∈ (groupLoop states dry lo hi gs).1, isCfgEvent m = false := by
  intro gs
  induction gs with
  | nil =>
    intro _
    exact ⟨rfl, by intro m hm; simp [groupLoop] at hm⟩
  | cons kg gs ih =>
    intro hall
    obtain ⟨hs, hm⟩ := processGroup_gate_skip states dry lo hi kg.1 kg.2
      (hall kg (List.mem_cons_self _ _))
    obtain ⟨ihs, ihm⟩ := ih (fun x hx => hall x (List.mem_cons_of_mem _ hx))
    simp only [groupLoop]
    constructor
    · show ((processGroup states dry lo hi kg.1 kg.2).2 ++
        (groupLoop states dry lo hi gs).2) = []
      rw [hs, ihs]
      rfl
    · intro m hm2
      rcases List.mem_append.mp hm2 with hm3 | hm3
      · exact hm m hm3
      · exact ihm m hm3

theorem processNoRow_gate_skip (states : String → DeviceState) (dry : Bool) (r : Row)
    (h : ((states (pyStrip r.destination_device)).ifacePc
        (to_eth_canonical r.destination_port)).1 = true ∨
      (states (pyStrip r.destination_device)).ifaceUp
        (to_eth_canonical r.destination_port) = true) :
    (processNoRow states dry r).2 = [] ∧
      ∀ m ∈ (processNoRow states dry r).1, isCfgEvent m = false := by
  simp only [processNoRow]
  split
  · refine ⟨rfl, ?_⟩
    intro m hm
    obtain rfl := List.mem_singleton.mp hm
    rfl
  · split
    · refine ⟨rfl, ?_⟩
      intro m hm
      obtain rfl := List.mem_singleton.mp hm
      rfl
    · split
      · refine ⟨rfl, ?_⟩
        intro m hm
        obtain rfl := List.mem_singleton.mp hm
        rfl
      · rename_i h1 h2
        rcases h with h | h
        · exact absurd h h1
        · exact absurd h h2

theorem noLoop_gate_skip (states : String → DeviceState) (dry : Bool) :
    ∀ rows : List Row,
      (∀ r ∈ rows, ((states (pyStrip r.destination_device)).ifacePc
          (to_eth_canonical r.destination_port)).1 = true ∨
        (states (pyStrip r.destination_device)).ifaceUp
          (to_eth_canonical r.destination_port) = true) →
      (noLoop states dry rows).2 = [] ∧
        ∀ m ∈ (noLoop states dry rows).1, isCfgEvent m = false := by
  intro rows
  induction rows with
  | nil =>
    intro _
    exact ⟨rfl, by intro m hm; simp [noLoop] at hm⟩
  | cons r rs ih =>
    intro hall
    obtain ⟨hs, hm⟩ := processNoRow_gate_skip states dry r (hall r (List.mem_cons_self _ _))
    obtain ⟨ihs, ihm⟩ := ih (fun x hx => hall x (List.mem_cons_of_mem _ hx))
    simp only [noLoop]
    constructor
    · show ((processNoRow states dry r).2 ++ (noLoop states dry rs).2) = []
      rw [hs, ihs]
      rfl
    · intro m hm2
      rcases List.mem_append.mp hm2 with hm3 | hm3
      · exact hm m hm3
      · exact ihm m hm3

/-- C9: if the device state reports every referenced destination interface of
the loaded plan as already channel-bonded and link-up, the run submits zero
configuration statements and emits no planning, preview or apply event —
every bundle ends as skipped; and, bundle-locally, a peered bundle with
either condition true on either side contributes no submission and no
configuration event (it is skipped whole). -/
theorem idempotent_run (raw : List Row) (states : String → DeviceState)
    (lo hi : Int) (dry : Bool)
    (h : ∀ r ∈ load_plan raw,
      ((states (pyStrip r.destination_device)).ifacePc
        (to_eth_canonical r.destination_port)).1 = true ∧
      (states (pyStrip r.destination_device)).ifaceUp
        (to_eth_canonical r.destination_port) = true) :
    ((runMain raw states lo hi dry).subs = [] ∧
      ∀ m ∈ (runMain raw states lo hi dry).out, isCfgEvent m = false) ∧
    ∀ (st1 st2 : DeviceState) (p0 p1 grp : String) (used : Finset Int) (b : Row × Row),
      ((st1.ifacePc (to_eth_canonical b.1.destination_port)).1 = true ∨
        st1.ifaceUp (to_eth_canonical b.1.destination_port) = true ∨
        (st2.ifacePc (to_eth_canonical b.2.destination_port)).1 = true ∨
        st2.ifaceUp (to_eth_canonical b.2.destination_port) = true) →
      (stepBundle st1 st2 p0 p1 grp dry lo hi used b).subs = [] ∧
        ∀ m ∈ (stepBundle st1 st2 p0 p1 grp dry lo hi used b).msgs, isCfgEvent m = false := by
  constructor
  · have hOr : ∀ r ∈ load_plan raw,
        ((states (pyStrip r.destination_device)).ifacePc
          (to_eth_canonical r.destination_port)).1 = true ∨
        (states (pyStrip r.destination_device)).ifaceUp
          (to_eth_canonical r.destination_port) = true :=
      fun r hr => Or.inl (h r hr).1
    simp only [runMain]
    split
    · refine ⟨rfl, ?_⟩
      intro m hm
      rcases List.mem_append.mp hm with hm2 | hm2
      · obtain ⟨dev, miss, rfl⟩ := precheck_msgs_shape (load_plan raw) states m hm2
        rfl
      · obtain rfl := List.mem_singleton.mp hm2
        rfl
    · split
      · refine ⟨rfl, ?_⟩
        intro m hm
        rcases List.mem_cons.mp hm with rfl | hm2
        · rfl
        · obtain rfl := List.mem_singleton.mp hm2
          rfl
      · obtain ⟨hgs, hgm⟩ := groupLoop_gate_skip states dry lo hi (groupsOf (load_plan raw))
          (fun kg hkg r hr => hOr r (groupsOf_rows_sub hkg r hr))
        obtain ⟨hns, hnm⟩ := noLoop_gate_skip states dry
          ((load_plan raw).filter (fun r => r.pc_required == "no"))
          (fun r hr => hOr r (List.mem_of_mem_filter hr))
        constructor
        · show (groupLoop states dry lo hi (groupsOf (load_plan raw))).2 ++
            (noLoop states dry ((load_plan raw).filter (fun r => r.pc_required == "no"))).2 = []
          rw [hgs, hns]
          rfl
        · intro m hm
          rcases List.mem_cons.mp hm with rfl | hm2
          · rfl
          · rcases List.mem_append.mp hm2 with hm3 | hm3
            · rcases List.mem_append.mp hm3 with hm4 | hm4
              · exact hgm m hm4
              · exact hnm m hm4
            · obtain rfl := List.mem_singleton.mp hm3
              rfl
  · intro st1 st2 p0 p1 grp used b hb
    exact stepBundle_gate_skip st1 st2 p0 p1 grp dry lo hi used b hb

def statesBusy : String → DeviceState := fun _ =>
  ⟨∅, ∅, ∅, ({10} : Finset Nat), fun _ => (true, "channel-group present"), fun _ => true,
   "5", true, true⟩

/-- Witness for C9: with every interface reported bonded and link-up, the run
over a two-row group and one single-interface row submits nothing. -/
theorem idempotent_run_witness :
    (runMain c2rows statesBusy 1 100 false).subs = [] :=
  ((idempotent_run c2rows statesBusy 1 100 false (by decide)).1).1

/- ----------------------- single-device groups (C7) ----------------------- -/

theorem no_pc_access_lines (iface desc vlan mtu : String) :
    ∀ line ∈ ("interface " ++ iface) :: build_access_physical_no_pc desc vlan mtu,
      ("channel-group").data.isPrefixOf line.data = false ∧
        ("vpc ").data.isPrefixOf line.data = false := by
  intro line hl
  fin_cases hl <;> exact ⟨rfl, rfl⟩

theorem no_pc_trunk_lines (iface desc allowed nat_v mtu : String) :
    ∀ line ∈ ("interface " ++ iface) :: build_trunk_physical_no_pc desc allowed nat_v mtu,
      ("channel-group").data.isPrefixOf line.data = false ∧
        ("vpc ").data.isPrefixOf line.data = false := by
  intro line hl
  fin_cases hl <;> exact ⟨rfl, rfl⟩

/-- C7 (amended): a group that requests a channel but has a number of
destination devices other than two (in particular one) is not turned into
single-sided channel bundles: it is reported as a group error and skipped
whole, producing no bundle and no configuration; and a row that does not
request a channel is composed as a plain physical interface whose statement
sequence contains no channel-membership (channel-group) statement and no
peering-identity (vpc) statement, whether submitted or previewed. -/
theorem single_device_group_skipped (states : String → DeviceState) (dry : Bool)
    (lo hi : Int) (k : String) (g : List Row) (r : Row) :
    ((peersOf g).length ≠ 2 →
      processGroup states dry lo hi k g = ([.groupPeersErr k (peersOf g)], [])) ∧
    (∀ dc ∈ (processNoRow states dry r).2, ∀ line ∈ dc.2,
      ("channel-group").data.isPrefixOf line.data = false ∧
        ("vpc ").data.isPrefixOf line.data = false) ∧
    (∀ m ∈ (processNoRow states dry r).1, ∀ (hdev : String) (c : List String),
      m = Msg.dryCfg hdev c → ∀ line ∈ c,
        ("channel-group").data.isPrefixOf line.data = false ∧
          ("vpc ").data.isPrefixOf line.data = false) := by
  refine ⟨?_, ?_, ?_⟩
  · intro hlen
    rcases hp : peersOf g with _ | ⟨a, rest⟩
    · simp [processGroup, hp]
    · rcases rest with _ | ⟨b, rest2⟩
      · simp [processGroup, hp]
      · rcases rest2 with _ | ⟨c, tl⟩
        · rw [hp] at hlen
          simp at hlen
        · simp [processGroup, hp]
  · intro dc hdc
    simp only [processNoRow] at hdc
    split at hdc
    · simp at hdc
    · split at hdc
      · simp at hdc
      · split at hdc
        · simp at hdc
        · split at hdc
          · split at hdc
            · simp at hdc
            · split at hdc
              · simp at hdc
              · obtain rfl := List.mem_singleton.mp hdc
                intro line hl
                exact no_pc_access_lines _ _ _ _ line hl
          · split at hdc
            · split at hdc
              · simp at hdc
              · obtain rfl := List.mem_singleton.mp hdc
                intro line hl
                exact no_pc_trunk_lines _ _ _ _ _ line hl
            · simp at hdc
  · intro m hm
    simp only [processNoRow] at hm
    split at hm
    · obtain rfl := List.mem_singleton.mp hm
      intro hdev c heq
      simp at heq
    · split at hm
      · obtain rfl := List.mem_singleton.mp hm
        intro hdev c heq
        simp at heq
      · split at hm
        · obtain rfl := List.mem_singleton.mp hm
          intro hdev c heq
          simp at heq
        · split at hm
          · split at hm
            · obtain rfl := List.mem_singleton.mp hm
              intro hdev c heq
              simp at heq
            · split at hm
              · simp only [List.mem_cons, List.not_mem_nil, or_false] at hm
                rcases hm with rfl | rfl
                · intro hdev c heq
                  simp at heq
                · intro hdev c heq
                  obtain ⟨rfl, rfl⟩ := Msg.dryCfg.inj heq
                  intro line hl
                  exact no_pc_access_lines _ _ _ _ line hl
              · simp only [List.mem_cons, List.not_mem_nil, or_false] at hm
                rcases hm with rfl | rfl
                · intro hdev c heq
                  simp at heq
                · intro hdev c heq
                  simp at heq
          · split at hm
            · split at hm
              · simp only [List.mem_cons, List.not_mem_nil, or_false] at hm
                rcases hm with rfl | rfl
                · intro hdev c heq
                  simp at heq
                · intro hdev c heq
                  obtain ⟨rfl, rfl⟩ := Msg.dryCfg.inj heq
                  intro line hl
                  exact no_pc_trunk_lines _ _ _ _ _ line hl
              · simp only [List.mem_cons, List.not_mem_nil, or_false] at hm
                rcases hm with rfl | rfl
                · intro hdev c heq
                  simp at heq
                · intro hdev c heq
                  simp at heq
            · obtain rfl := List.mem_singleton.mp hm
              intro hdev c heq
              simp at heq

def c7rows : List Row :=
  [ mkRow ("srv1") ("e1") ("access") ("10") ("") ("A") ("Eth1/1") ("9216") ("yes") ("g1") ("") ]

/-- Witness for C7 (amended): a one-device group requesting a channel is
reported as a group error and produces nothing. -/
theorem single_device_group_skipped_witness :
    processGroup statesAll true 1 100 ("g1") c7rows =
      ([.groupPeersErr ("g1") ["A"]], []) :=
  (single_device_group_skipped statesAll true 1 100 ("g1") c7rows
    (mkRow ("") ("") ("") ("") ("") ("") ("") ("") ("") ("") (""))).1 (by decide)

/-- Counterexample to C7 as stated: a run whose only group requests a channel
but has exactly one destination device produces no bundle at all — no plan,
no preview, no submission, only the group error — instead of single-sided
channel-shaped bundles. -/
theorem single_device_group_no_bundle :
    runMain c7rows statesAll 1 100 true =
      ⟨[.vlanPass, .groupPeersErr ("g1") ["A"], .done], []⟩ := by
  decide

end PortChannel
